import Mathlib

/-!
Verification of the VHDL policy engine (Rust) against its specification.

The Rust sources are shallowly embedded below.  Strings are modelled as
lists of characters (`Str`); all inputs of interest are ASCII, where
Rust's byte indexing coincides with character indexing.  Rust's
`HashMap` fields are modelled as association lists; Rust's `HashSet`
membership tests become linear scans, which is observationally
equivalent.  `usize` values are modelled as `Nat`.  Fields of the fact
model that no embedded rule consults are elided from the record types.
-/

abbrev Str := List Char

def str (s : String) : Str := s.data

/-- Rust `u8::to_ascii_lowercase` lifted to a character: maps A..Z to a..z
and leaves everything else unchanged. -/
def lowerChar (c : Char) : Char :=
  if 65 ≤ c.toNat ∧ c.toNat ≤ 90 then Char.ofNat (c.toNat + 32) else c

/-- Rust `str::to_ascii_lowercase`. -/
def lowerStr (s : Str) : Str := s.map lowerChar

/-- Rust `str::eq_ignore_ascii_case`. -/
def eqIgnoreCase (a b : Str) : Bool := decide (lowerStr a = lowerStr b)

/-- Rust `str::contains` for a literal substring needle. -/
def containsSub (hay needle : Str) : Bool :=
  hay.tails.any (fun t => needle.isPrefixOf t)

/-- Rust `str::ends_with`. -/
def endsWithStr (hay suffix : Str) : Bool := suffix.isSuffixOf hay

/-- Rust `str::starts_with`. -/
def startsWithStr (hay pre : Str) : Bool := pre.isPrefixOf hay

/-- Rust `str::find` for a substring pattern (index of first match). -/
def findSubIdx (needle : Str) : Str → Option Nat
  | [] => if needle = [] then some 0 else none
  | c :: t =>
    if needle.isPrefixOf (c :: t) then some 0
    else (findSubIdx needle t).map (· + 1)

/-- Rust `str::find` for a single-character pattern. -/
def findCharIdx (c : Char) : Str → Option Nat
  | [] => none
  | x :: t => if x = c then some 0 else (findCharIdx c t).map (· + 1)

/-- Rust `str::rfind` for a single-character pattern. -/
def rfindCharIdx (c : Char) (s : Str) : Option Nat :=
  (findCharIdx c s.reverse).map (fun i => s.length - 1 - i)

/-- Rust `str::trim` (whitespace stripped from both ends). -/
def trimStr (s : Str) : Str :=
  ((s.dropWhile Char.isWhitespace).reverse.dropWhile Char.isWhitespace).reverse

/-- Value of a string of decimal digits. -/
def digitsVal (s : Str) : Nat := s.foldl (fun a c => 10 * a + (c.toNat - 48)) 0

def allDigits (s : Str) : Bool := s.all Char.isDigit

def parseDigits (s : Str) : Option Nat :=
  if !s.isEmpty && allDigits s then some (digitsVal s) else none

/-- Rust `str::parse::<isize>()`: optional sign followed by one or more
digits.  Overflow is not modelled (the spec's widths are tiny). -/
def parseIntL : Str → Option Int
  | [] => (parseDigits []).map Int.ofNat
  | c :: rest =>
    if c = '+' then (parseDigits rest).map Int.ofNat
    else if c = '-' then (parseDigits rest).map (fun n => -(n : Int))
    else (parseDigits (c :: rest)).map Int.ofNat

/-- Rust `String` ordering (`<`), i.e. lexicographic order; on the ASCII
strings of this development byte order and scalar order agree. -/
def strLt : Str → Str → Bool
  | [], [] => false
  | [], _ :: _ => true
  | _ :: _, [] => false
  | a :: as, b :: bs =>
    if a.toNat < b.toNat then true
    else if b.toNat < a.toNat then false
    else strLt as bs

/-- Decimal rendering of a `usize` for interpolated messages. -/
def natStr (n : Nat) : Str := (Nat.repr n).data

/-- Split a string on a separator character (Rust `str::split`). -/
def splitOnChar (c : Char) : Str → List Str
  | [] => [[]]
  | x :: t =>
    let r := splitOnChar c t
    if x = c then [] :: r
    else
      match r with
      | [] => [[x]]
      | h :: hs => (x :: h) :: hs

theorem char_toNat_ofNat {n : Nat} (h : n.isValidChar) : (Char.ofNat n).toNat = n := by
  rw [Char.ofNat, dif_pos h]
  simp [Char.ofNatAux, Char.toNat, UInt32.toNat]

theorem lowerChar_toNat (c : Char) (h : 65 ≤ c.toNat ∧ c.toNat ≤ 90) :
    (lowerChar c).toNat = c.toNat + 32 := by
  have hv : (c.toNat + 32).isValidChar := Or.inl (by omega)
  simp [lowerChar, h, char_toNat_ofNat hv]

theorem lowerChar_of_not (c : Char) (h : ¬ (65 ≤ c.toNat ∧ c.toNat ≤ 90)) :
    lowerChar c = c := by
  simp [lowerChar, h]

theorem lowerChar_idem (c : Char) : lowerChar (lowerChar c) = lowerChar c := by
  by_cases h : 65 ≤ c.toNat ∧ c.toNat ≤ 90
  · exact lowerChar_of_not _ (by have := lowerChar_toNat c h; omega)
  · rw [lowerChar_of_not c h, lowerChar_of_not c h]

theorem lowerStr_idem (s : Str) : lowerStr (lowerStr s) = lowerStr s := by
  simp [lowerStr, Function.comp, lowerChar_idem]

theorem eqIgnoreCase_lower_left (a b : Str) :
    eqIgnoreCase (lowerStr a) b = eqIgnoreCase a b := by
  simp [eqIgnoreCase, lowerStr_idem]

theorem eqIgnoreCase_lower_right (a b : Str) :
    eqIgnoreCase a (lowerStr b) = eqIgnoreCase a b := by
  simp [eqIgnoreCase, lowerStr_idem]

theorem eqIgnoreCase_true_iff (a b : Str) :
    eqIgnoreCase a b = true ↔ lowerStr a = lowerStr b := by
  simp [eqIgnoreCase]

theorem lowerStr_append (a b : Str) : lowerStr (a ++ b) = lowerStr a ++ lowerStr b := by
  simp [lowerStr]

theorem strLt_irrefl (a : Str) : strLt a a = false := by
  induction a with
  | nil => rfl
  | cons c t ih => simp [strLt, ih]

theorem strLt_asymm (a b : Str) : strLt a b = true → strLt b a = false := by
  induction a generalizing b with
  | nil =>
    intro h
    cases b with
    | nil => simp [strLt] at h
    | cons c t => simp [strLt]
  | cons c t ih =>
    intro h
    cases b with
    | nil => simp [strLt] at h
    | cons d u =>
      simp only [strLt] at h ⊢
      by_cases h1 : c.toNat < d.toNat
      · simp [h1, Nat.not_lt.mpr (Nat.le_of_lt h1), Nat.lt_asymm h1]
      · by_cases h2 : d.toNat < c.toNat
        · simp [h1, h2] at h
        · simp only [h1, h2, if_false] at h ⊢
          simp [ih u h]

theorem strLt_total_eq (a b : Str) (hab : strLt a b = false) (hba : strLt b a = false) :
    a = b := by
  induction a generalizing b with
  | nil =>
    cases b with
    | nil => rfl
    | cons d u => simp [strLt] at hab
  | cons c t ih =>
    cases b with
    | nil => simp [strLt] at hba
    | cons d u =>
      simp only [strLt] at hab hba
      by_cases h1 : c.toNat < d.toNat
      · simp [h1] at hab
      · by_cases h2 : d.toNat < c.toNat
        · simp [h2, Nat.not_lt.mpr (Nat.le_of_lt h2)] at hba
        · have hcd : c = d := by
            apply Char.ext
            have := Nat.le_antisymm (Nat.not_lt.mp h2) (Nat.not_lt.mp h1)
            exact UInt32.toNat.inj this
          subst hcd
          simp only [h1, h2, if_false] at hab hba
          rw [ih u hab hba]

/-!
Fact model (`src/policy/input.rs`) and derived result model
(`src/policy/result.rs`), restricted to the fields the embedded rules
consult.  `usize` and `i64` line counters are modelled as `Nat`.
-/

structure Port where
  name : Str
  direction : Str
  type : Str
  dflt : Str
  line : Nat
  in_entity : Str
  width : Nat
deriving DecidableEq

structure Entity where
  name : Str
  file : Str
  line : Nat
  ports : List Port
deriving DecidableEq

structure Architecture where
  name : Str
  entity_name : Str
  file : Str
  line : Nat
deriving DecidableEq

structure Signal where
  name : Str
  type : Str
  file : Str
  line : Nat
  in_entity : Str
  width : Nat
deriving DecidableEq

structure Dependency where
  source : Str
  target : Str
  kind : Str
  line : Nat
  resolved : Bool
deriving DecidableEq

structure Process where
  label : Str
  is_sequential : Bool
  is_combinational : Bool
  clock_signal : Str
  has_reset : Bool
  reset_signal : Str
  assigned_signals : List Str
  read_signals : List Str
  file : Str
  line : Nat
  in_arch : Str
deriving DecidableEq

structure ConcurrentAssignment where
  target : Str
  read_signals : List Str
  file : Str
  line : Nat
  in_arch : Str
  in_generate : Bool
  generate_label : Str
deriving DecidableEq

structure SignalDep where
  source : Str
  target : Str
  file : Str
  line : Nat
  is_sequential : Bool
  in_process : Str
  in_arch : Str
deriving DecidableEq

structure Association where
  kind : Str
  formal : Str
  actual : Str
  is_positional : Bool
  actual_base : Str
  actual_full : Str
  position_index : Nat
deriving DecidableEq

structure Instance where
  name : Str
  target : Str
  port_map : List (Str × Str)
  associations : List Association
  file : Str
  line : Nat
  in_arch : Str
deriving DecidableEq

structure TypeDeclaration where
  name : Str
  kind : Str
deriving DecidableEq

structure VerificationBlock where
  label : Str
  line_start : Nat
  line_end : Nat
  file : Str
  in_arch : Str
deriving DecidableEq

structure VerificationTag where
  id : Str
  scope : Str
  bindings : List (Str × Str)
  file : Str
  line : Nat
  in_arch : Str
deriving DecidableEq

structure Input where
  entities : List Entity
  architectures : List Architecture
  signals : List Signal
  ports : List Port
  dependencies : List Dependency
  processes : List Process
  concurrent_assignments : List ConcurrentAssignment
  signal_deps : List SignalDep
  instances : List Instance
  types : List TypeDeclaration
  enum_literals : List Str
  constants : List Str
  shared_variables : List Str
  verification_blocks : List VerificationBlock
  lint_config : List (Str × Str)
  third_party_files : List Str
deriving DecidableEq

def emptyInput : Input :=
  ⟨[], [], [], [], [], [], [], [], [], [], [], [], [], [], [], []⟩

structure Violation where
  rule : Str
  severity : Str
  file : Str
  line : Nat
  message : Str
deriving DecidableEq

structure VerificationAnchor where
  label : Str
  line_start : Nat
  line_end : Nat
  exists_flag : Bool
deriving DecidableEq

structure MissingCheckTask where
  file : Str
  scope : Str
  anchor : VerificationAnchor
  missing_ids : List Str
  bindings : List (Str × Str)
  notes : List Str
deriving DecidableEq

structure AmbiguousConstruct where
  kind : Str
  scope : Str
  file : Str
  line : Nat
deriving DecidableEq

/-!
Helper predicates (`src/policy/helpers.rs`), embedded for the helpers
the claims' rules reach.
-/

def is_testbench_name (name : Str) : Bool :=
  let lower := lowerStr name
  containsSub lower (str "_tb") ||
  containsSub lower (str "tb_") ||
  endsWithStr lower (str "tb") ||
  containsSub lower (str "test") ||
  containsSub lower (str "bench") ||
  containsSub lower (str "bfm") ||
  containsSub lower (str "verification")

def is_resolved_type (type_str : Str) : Bool :=
  let lower := lowerStr type_str
  containsSub lower (str "std_logic") ||
  containsSub lower (str "std_logic_vector") ||
  containsSub lower (str "signed") ||
  containsSub lower (str "unsigned")

def is_resolved_signal (input : Input) (name : Str) : Bool :=
  input.signals.any (fun sig => eqIgnoreCase sig.name name && is_resolved_type sig.type) ||
  input.ports.any (fun port => eqIgnoreCase port.name name && is_resolved_type port.type)

def base_type_name (t : Str) : Str :=
  let trimmed := lowerStr (trimStr t)
  let head := trimmed.takeWhile (fun c => !c.isWhitespace)
  let no_params := head.takeWhile (fun c => !(c = '('))
  (splitOnChar '.' no_params).getLastD no_params

def is_named_composite_type (input : Input) (t : Str) : Bool :=
  let base := base_type_name t
  input.types.any (fun td =>
    eqIgnoreCase td.name base && (decide (td.kind = str "record") || decide (td.kind = str "array")))

def is_composite_type (input : Input) (t : Str) : Bool :=
  let base := base_type_name t
  containsSub base (str "vector") ||
  decide (base = str "signed") ||
  decide (base = str "unsigned") ||
  containsSub (lowerStr t) (str "array") ||
  is_named_composite_type input t

def is_unresolved_scalar_type (t : Str) : Bool :=
  [str "bit", str "std_ulogic", str "boolean", str "integer", str "natural",
    str "positive", str "time", str "character", str "real"].any
    (fun s => decide (lowerStr (base_type_name t) = s))

def base_arch_name (in_arch : Str) : Str :=
  (splitOnChar '.' in_arch).headD in_arch

def file_in_testbench (input : Input) (file : Str) : Bool :=
  input.entities.any (fun entity => decide (entity.file = file) && is_testbench_name entity.name)

def is_third_party_file (input : Input) (file : Str) : Bool :=
  input.third_party_files.any (fun f => decide (file = f) || endsWithStr file f)

def lookupRule (input : Input) (rule : Str) : Option Str :=
  (input.lint_config.find? (fun p => decide (p.1 = rule))).map (·.2)

def optionalRuleNames : List Str :=
  [str "entity_naming", str "naming_convention", str "entity_has_ports",
   str "entity_no_ports_not_tb", str "entity_without_arch", str "architecture_has_entity",
   str "configuration_missing_entity", str "component_resolved", str "signal_input_naming",
   str "signal_output_naming", str "active_low_naming", str "async_reset_active_high",
   str "missing_reset", str "instance_naming_convention", str "positional_mapping",
   str "process_label_missing", str "architecture_naming_convention", str "empty_architecture",
   str "trivial_architecture", str "multiple_entities_per_file", str "large_entity",
   str "wide_signal", str "duplicate_signal_name", str "single_state_signal",
   str "fsm_unreachable_state", str "state_signal_not_enum", str "fsm_missing_default_state",
   str "fsm_unhandled_state", str "large_combinational_process", str "vhdl2008_sensitivity_all",
   str "long_sensitivity_list", str "combinational_feedback", str "empty_sensitivity_combinational",
   str "direct_combinational_loop", str "two_stage_combinational_loop",
   str "three_stage_combinational_loop", str "potential_combinational_loop",
   str "cross_process_combinational_loop", str "sensitivity_list_superfluous",
   str "sensitivity_list_incomplete", str "missing_reset_sensitivity",
   str "missing_clock_sensitivity", str "very_wide_register", str "mixed_edge_clocking",
   str "async_reset_naming", str "sparse_port_map", str "empty_port_map",
   str "instance_name_matches_component", str "repeated_component_instantiation",
   str "many_instances", str "hardcoded_port_value", str "open_port_connection",
   str "floating_instance_input", str "very_long_file", str "large_package",
   str "short_signal_name", str "long_signal_name", str "short_port_name",
   str "entity_name_with_numbers", str "mixed_port_directions", str "bidirectional_port",
   str "unused_signal", str "undriven_signal", str "undriven_output_port",
   str "inout_as_input", str "inout_as_output", str "unresolved_dependency",
   str "undeclared_signal_usage", str "multi_driven_signal", str "unused_input_port",
   str "duplicate_signal_in_entity", str "duplicate_port_in_entity",
   str "duplicate_entity_in_file", str "file_entity_mismatch", str "many_signals",
   str "buffer_port", str "deep_generate_nesting", str "unlabeled_generate",
   str "magic_width_number", str "hardcoded_generic", str "multiple_clock_domains",
   str "multiple_clocks_in_process", str "very_wide_bus", str "critical_signal_no_reset",
   str "combinational_reset", str "unregistered_output", str "potential_memory_inference",
   str "complex_process", str "legacy_packages", str "testbench_with_ports",
   str "mismatched_tb_architecture", str "tb_with_synth_arch",
   str "combinational_incomplete_assignment", str "comb_process_no_default",
   str "conditional_assignment_review", str "selected_assignment_review",
   str "combinational_default_values", str "enum_case_incomplete", str "fsm_no_reset_state",
   str "mixed_signedness", str "large_literal_comparison", str "magic_number_comparison",
   str "counter_trigger", str "inverted_trigger", str "multi_trigger_process",
   str "cdc_unsync_single_bit", str "cdc_unsync_multi_bit", str "cdc_insufficient_sync",
   str "async_reset_unsynchronized", str "partial_reset_domain", str "short_reset_sync",
   str "reset_crosses_domains", str "combinational_reset_gen", str "potential_latch",
   str "incomplete_case_latch", str "reset_not_std_logic", str "clock_not_std_logic",
   str "signal_in_seq_and_comb", str "unguarded_multiplication", str "unguarded_division",
   str "unguarded_exponent", str "power_hotspot", str "combinational_multiplier",
   str "weak_guard", str "dsp_candidate_no_control", str "clock_gating_opportunity",
   str "gated_clock_detection", str "signal_crosses_clock_domain", str "port_width_mismatch",
   str "input_port_driven", str "procedure_param_invalid_mode",
   str "function_param_invalid_mode", str "trigger_drives_output"]

def is_optional_rule (rule : Str) : Bool :=
  optionalRuleNames.any (fun s => decide (s = rule))

def rule_is_disabled (input : Input) (rule : Str) : Bool :=
  match lookupRule input rule with
  | some val => if val = str "off" then true else false
  | none => is_optional_rule rule

def get_rule_severity (input : Input) (rule : Str) : Option Str :=
  lookupRule input rule

/-!
Combinational-loop rules (`src/policy/combinational.rs`).
-/

def sequentialTargets (input : Input) : List Str :=
  (input.signal_deps.filter (fun dep => dep.is_sequential)).map (·.target)

def direct_combinational_loop (input : Input) : List Violation :=
  (input.signal_deps.filter (fun dep =>
      !dep.is_sequential && decide (dep.source = dep.target) &&
      !(sequentialTargets input).any (fun t => decide (t = dep.target)) &&
      !file_in_testbench input dep.file &&
      !is_resolved_signal input dep.target)).map (fun dep =>
    { rule := str "direct_combinational_loop"
      severity := str "error"
      file := dep.file
      line := dep.line
      message := str "Direct combinational loop: signal '" ++ dep.source ++
        str "' depends on itself" })

def filtered_combinational_deps (input : Input) : List SignalDep :=
  (input.signal_deps.filter (fun dep => !dep.is_sequential)).filter (fun dep =>
    !is_resolved_signal input dep.source && !is_resolved_signal input dep.target)

def edgesContain (deps : List SignalDep) (key : Str × Str) : Bool :=
  deps.any (fun d => decide ((lowerStr d.source, lowerStr d.target) = key))

def twoStageMsg (source target : Str) : Str :=
  str "Combinational loop detected: '" ++ source ++ str "' -> '" ++ target ++
  str "' -> '" ++ source ++ str "'"

def twoStageGo (deps : List SignalDep) : List SignalDep → List (Str × Str) → List Violation
  | [], _ => []
  | dep :: rest, seen =>
    let src := lowerStr dep.source
    let dst := lowerStr dep.target
    if src = dst then twoStageGo deps rest seen
    else if edgesContain deps (dst, src) then
      let key := if strLt src dst then (src, dst) else (dst, src)
      if seen.any (fun k => decide (k = key)) then twoStageGo deps rest seen
      else
        { rule := str "two_stage_combinational_loop"
          severity := str "error"
          file := dep.file
          line := dep.line
          message := twoStageMsg dep.source dep.target } :: twoStageGo deps rest (key :: seen)
    else twoStageGo deps rest seen

def two_stage_loop (input : Input) : List Violation :=
  let deps := filtered_combinational_deps input
  twoStageGo deps deps []

/-!
Reset-domain-crossing rule (`src/policy/rdc.rs`).
-/

def rcdMsg (reset clock1 clock2 : Str) : Str :=
  str "Reset '" ++ reset ++ str "' used in multiple clock domains ('" ++ clock1 ++
  str "' and '" ++ clock2 ++ str "') - each domain needs synchronized reset"

def rcdInner (proc1 proc2 : Process) : Option Violation :=
  if !proc2.has_reset || decide (proc2.reset_signal ≠ proc1.reset_signal) then none
  else if proc1.clock_signal.isEmpty || proc2.clock_signal.isEmpty ||
          decide (proc1.clock_signal = proc2.clock_signal) then none
  else if proc2.line ≤ proc1.line then none
  else some
    { rule := str "reset_crosses_domains"
      severity := str "error"
      file := proc1.file
      line := proc1.line
      message := rcdMsg proc1.reset_signal proc1.clock_signal proc2.clock_signal }

def rcdOuter (input : Input) (proc1 : Process) : List Violation :=
  if !proc1.has_reset || proc1.reset_signal.isEmpty then []
  else input.processes.filterMap (rcdInner proc1)

def reset_crosses_domains (input : Input) : List Violation :=
  input.processes.flatMap (rcdOuter input)

/-!
Driver counting (`src/policy/signals.rs`).
-/

def is_enum_literal (input : Input) (name : Str) : Bool :=
  input.enum_literals.any (fun lit => eqIgnoreCase lit name)

def is_constant (input : Input) (name : Str) : Bool :=
  input.constants.any (fun c => eqIgnoreCase c name)

def is_shared_variable (input : Input) (name : Str) : Bool :=
  input.shared_variables.any (fun v => eqIgnoreCase v name)

/-- `signals.rs`'s own `is_actual_signal` (enum literals, constants and
shared variables are not signals). -/
def is_actual_signal (input : Input) (name : Str) : Bool :=
  !is_enum_literal input name && !is_constant input name && !is_shared_variable input name

def arch_matches_entity (arch : Architecture) (entity_or_arch : Str) : Bool :=
  eqIgnoreCase arch.entity_name entity_or_arch ||
  eqIgnoreCase arch.name (base_arch_name entity_or_arch)

def signal_in_testbench (input : Input) (sig : Signal) : Bool :=
  input.architectures.any (fun arch =>
    eqIgnoreCase arch.name (base_arch_name sig.in_entity) &&
    is_testbench_name arch.entity_name)

def sig_assigned_in_process (input : Input) (sig_name : Str) (proc : Process) : Bool :=
  proc.assigned_signals.any (fun assigned =>
    eqIgnoreCase assigned sig_name && is_actual_signal input assigned)

def collectGenLabels : List ConcurrentAssignment → List Str → List Str
  | [], acc => acc
  | ca :: rest, acc =>
    if acc.any (fun label => eqIgnoreCase label ca.generate_label) then
      collectGenLabels rest acc
    else
      collectGenLabels rest (acc ++ [ca.generate_label])

def count_drivers_in_entity (input : Input) (sig_name entity_name sig_file : Str) : Nat :=
  let proc_count := (input.processes.filter (fun proc =>
    sig_assigned_in_process input sig_name proc &&
    (match input.architectures.find? (fun arch =>
        decide (arch.name = proc.in_arch) && decide (arch.file = proc.file)) with
     | some arch => arch_matches_entity arch entity_name && decide (arch.file = sig_file)
     | none => false))).length
  let non_gen_drivers := (input.concurrent_assignments.filter (fun ca =>
    eqIgnoreCase ca.target sig_name && !ca.in_generate &&
    input.architectures.any (fun arch =>
      decide (arch.name = ca.in_arch) && arch_matches_entity arch entity_name &&
      decide (arch.file = ca.file) && decide (arch.file = sig_file)))).length
  let gen_cas := input.concurrent_assignments.filter (fun ca =>
    eqIgnoreCase ca.target sig_name && ca.in_generate &&
    input.architectures.any (fun arch =>
      decide (arch.name = ca.in_arch) && arch_matches_entity arch entity_name &&
      decide (arch.file = ca.file) && decide (arch.file = sig_file)))
  proc_count + non_gen_drivers + (collectGenLabels gen_cas []).length

def multiDrivenMsg (name : Str) (drivers : Nat) : Str :=
  str "Signal '" ++ name ++ str "' is assigned in " ++ natStr drivers ++
  str " places (review for multi-driver)"

def multi_driven_signal (input : Input) : List Violation :=
  input.signals.filterMap (fun sig =>
    if !signal_in_testbench input sig && !is_composite_type input sig.type &&
       !is_resolved_type sig.type && is_unresolved_scalar_type sig.type then
      let drivers := count_drivers_in_entity input sig.name sig.in_entity sig.file
      if drivers > 1 then
        some { rule := str "multi_driven_signal"
               severity := str "warning"
               file := sig.file
               line := sig.line
               message := multiDrivenMsg sig.name drivers }
      else none
    else none)

/-!
Port-width propagation (`src/policy/hierarchy.rs`).
-/

def target_matches_entity (target entity_name : Str) : Bool :=
  decide (target = entity_name) || endsWithStr target (str "." ++ entity_name)

def association_actual (assoc : Association) : Str :=
  if !assoc.actual.isEmpty then
    if !assoc.actual_full.isEmpty && assoc.actual_full.contains '(' &&
       !assoc.actual.contains '(' then
      assoc.actual_full
    else assoc.actual
  else if !assoc.actual_full.isEmpty then assoc.actual_full
  else assoc.actual_base

def portMapFallback (inst : Instance) (port_name : Str) : Str :=
  match inst.port_map.find? (fun p => decide (p.1 = port_name)) with
  | some p => p.2
  | none =>
    match inst.port_map.find? (fun p => eqIgnoreCase p.1 port_name) with
    | some p => p.2
    | none => []

def get_port_connection (inst : Instance) (entity : Entity) (port_name : Str) : Str :=
  match inst.associations.find? (fun assoc =>
      decide (assoc.kind = str "port") && !assoc.is_positional &&
      eqIgnoreCase assoc.formal port_name) with
  | some assoc => association_actual assoc
  | none =>
    match entity.ports.findIdx? (fun p => eqIgnoreCase p.name port_name) with
    | some pos =>
      match inst.associations.find? (fun assoc =>
          decide (assoc.kind = str "port") && assoc.is_positional &&
          decide (assoc.position_index = pos)) with
      | some assoc => association_actual assoc
      | none => portMapFallback inst port_name
    | none => portMapFallback inst port_name

def is_literal_or_expr (s : Str) : Bool :=
  (match s with
   | c :: _ => c.isDigit
   | [] => false) ||
  s.contains '+' || s.contains '-' || s.contains '*' || s.contains '&' ||
  (match s with
   | c1 :: c2 :: _ =>
     (decide (c1 = 'x') || decide (c1 = 'X') || decide (c1 = 'b') || decide (c1 = 'B') ||
      decide (c1 = 'o') || decide (c1 = 'O')) && decide (c2 = '"')
   | _ => false) ||
  (match s with
   | [c1, c2, c3] => decide (c1 = '\'') && decide (c3 = '\'') && decide (c2 ≠ '\n')
   | _ => false) ||
  containsSub (lowerStr s) (str "others")

def arch_entity_name_opt (input : Input) (arch_name : Str) : Option Str :=
  (input.architectures.find? (fun arch => eqIgnoreCase arch.name arch_name)).map (·.entity_name)

def get_signal_width (input : Input) (signal_name scope_arch : Str) : Nat :=
  if !scope_arch.isEmpty then
    let widths1 := (input.signals.filter (fun sig =>
      eqIgnoreCase sig.in_entity scope_arch && eqIgnoreCase sig.name signal_name)).map (·.width)
    let widths2 :=
      match arch_entity_name_opt input scope_arch with
      | some entity_name => (input.ports.filter (fun port =>
          eqIgnoreCase port.in_entity entity_name &&
          eqIgnoreCase port.name signal_name)).map (·.width)
      | none => []
    let widths := widths1 ++ widths2
    if !widths.isEmpty then widths.foldl max 0 else 0
  else
    let widths := (input.signals.filter (fun sig =>
        eqIgnoreCase sig.name signal_name)).map (·.width) ++
      (input.ports.filter (fun port => eqIgnoreCase port.name signal_name)).map (·.width)
    widths.foldl max 0

def base_name (actual : Str) : Str :=
  trimStr (actual.takeWhile (fun ch =>
    !(decide (ch = '(') || decide (ch = '.') || decide (ch = '\'') || ch.isWhitespace)))

def indexed_width (actual : Str) (base_width : Nat) : Option Nat :=
  match findCharIdx '(' actual with
  | none => none
  | some start =>
    match rfindCharIdx ')' actual with
    | none => none
    | some stop =>
      if stop ≤ start then none
      else
        let inside := trimStr ((actual.drop (start + 1)).take (stop - (start + 1)))
        if inside.contains ',' then some 0
        else
          let lower := lowerStr inside
          match findSubIdx (str " downto ") lower with
          | some idx =>
            let left := inside.take idx
            let right := (inside.drop idx).drop (str " downto ").length
            match parseIntL (trimStr left), parseIntL (trimStr right) with
            | some a, some b => some ((a - b).natAbs + 1)
            | _, _ => none
          | none =>
            match findSubIdx (str " to ") lower with
            | some idx =>
              let left := inside.take idx
              let right := (inside.drop idx).drop (str " to ").length
              match parseIntL (trimStr left), parseIntL (trimStr right) with
              | some a, some b => some ((a - b).natAbs + 1)
              | _, _ => none
            | none =>
              if base_width = 0 then some 0 else some 1

def get_actual_width (input : Input) (actual scope_arch : Str) : Nat :=
  if actual.isEmpty || eqIgnoreCase actual (str "open") then 0
  else if is_literal_or_expr actual then 0
  else
    let base := base_name actual
    let bw := get_signal_width input base scope_arch
    let base_width := if bw = 0 && decide (base ≠ actual) then
        get_signal_width input actual scope_arch
      else bw
    match indexed_width actual base_width with
    | some width => width
    | none => base_width

def widthMismatchMsg (actual_signal : Str) (signal_width : Nat) (port_name : Str)
    (port_width : Nat) (inst_name : Str) : Str :=
  str "Width mismatch: signal '" ++ actual_signal ++ str "' (" ++ natStr signal_width ++
  str " bits) connected to port '" ++ port_name ++ str "' (" ++ natStr port_width ++
  str " bits) in instance '" ++ inst_name ++ str "'"

def port_width_mismatch (input : Input) : List Violation :=
  input.instances.flatMap (fun inst =>
    let target_lower := lowerStr inst.target
    input.entities.flatMap (fun entity =>
      if !target_matches_entity target_lower (lowerStr entity.name) then []
      else
        entity.ports.filterMap (fun port =>
          if port.width = 0 then none
          else
            let actual_signal := get_port_connection inst entity port.name
            if actual_signal.isEmpty || eqIgnoreCase actual_signal (str "open") then none
            else
              let signal_width := get_actual_width input actual_signal inst.in_arch
              if signal_width = 0 then none
              else if signal_width ≠ port.width then
                some { rule := str "port_width_mismatch"
                       severity := str "error"
                       file := inst.file
                       line := inst.line
                       message := widthMismatchMsg actual_signal signal_width port.name
                         port.width inst.name }
              else none)))

/-!
Engine post-filtering (`src/policy/engine.rs`).
-/

def is_valid_severity (sev : Str) : Bool :=
  decide (sev = str "error") || decide (sev = str "warning") || decide (sev = str "info")

def filter_violations (input : Input) (violations : List Violation) : List Violation :=
  violations.filterMap (fun v =>
    if rule_is_disabled input v.rule then none
    else if is_third_party_file input v.file then none
    else
      match get_rule_severity input v.rule with
      | some sev => if is_valid_severity sev then some { v with severity := sev } else some v
      | none => some v)

def filter_missing_checks (input : Input) (tasks : List MissingCheckTask) :
    List MissingCheckTask :=
  if rule_is_disabled input (str "missing_verification_check") then []
  else tasks.filter (fun task => !is_third_party_file input task.file)

def filter_ambiguous_constructs (input : Input) (items : List AmbiguousConstruct) :
    List AmbiguousConstruct :=
  if rule_is_disabled input (str "ambiguous_construct") then []
  else items.filter (fun item => !is_third_party_file input item.file)

/-!
Core structural rules (`src/policy/core.rs`): the four rules that the
incremental engine also derives.
-/

def entityHasPortsMsg (name : Str) : Str :=
  str "Entity '" ++ name ++ str "' has no ports defined"

def missing_ports (input : Input) : List Violation :=
  (input.entities.filter (fun e => e.ports.isEmpty && !is_testbench_name e.name)).map
    (fun e =>
      { rule := str "entity_has_ports"
        severity := str "warning"
        file := e.file
        line := e.line
        message := entityHasPortsMsg e.name })

def entity_exists (input : Input) (name : Str) : Bool :=
  input.entities.any (fun e => eqIgnoreCase e.name name)

def orphanArchMsg (arch_name entity_name : Str) : Str :=
  str "Architecture '" ++ arch_name ++ str "' references undefined entity '" ++
  entity_name ++ str "'"

def orphan_architecture (input : Input) : List Violation :=
  (input.architectures.filter (fun a => !entity_exists input a.entity_name)).map
    (fun a =>
      { rule := str "architecture_has_entity"
        severity := str "error"
        file := a.file
        line := a.line
        message := orphanArchMsg a.name a.entity_name })

def unresolvedDepMsg (target : Str) : Str :=
  str "Unresolved dependency: '" ++ target ++ str "'"

def unresolved_dependency (input : Input) : List Violation :=
  (input.dependencies.filter (fun dep =>
      !dep.resolved && decide (dep.kind = str "instantiation"))).map
    (fun dep =>
      { rule := str "unresolved_dependency"
        severity := str "error"
        file := dep.source
        line := dep.line
        message := unresolvedDepMsg dep.target })

def has_architecture (input : Input) (entity_name : Str) : Bool :=
  input.architectures.any (fun arch => eqIgnoreCase arch.entity_name entity_name)

def entityWithoutArchMsg (name : Str) : Str :=
  str "Entity '" ++ name ++ str "' has no architecture defined"

def entity_without_arch (input : Input) : List Violation :=
  (input.entities.filter (fun e => !has_architecture input e.name)).map
    (fun e =>
      { rule := str "entity_without_arch"
        severity := str "warning"
        file := e.file
        line := e.line
        message := entityWithoutArchMsg e.name })

/-- The concatenation of the four core rules that the incremental engine
also derives, in the order `core.rs::violations` runs them. -/
def batchCoreFour (input : Input) : List Violation :=
  missing_ports input ++ orphan_architecture input ++ unresolved_dependency input ++
  entity_without_arch input

/-!
Generic stable sorting, used by `build_response` (sort_by) and
`format_bindings` (sort by key).  Rust's `sort_by` is stable; inserting
each element after all previously inserted elements that are not
strictly greater reproduces exactly the stable sort.
-/

def insertSortedBy (lt : α → α → Bool) (v : α) : List α → List α
  | [] => [v]
  | x :: xs => if lt v x then v :: x :: xs else x :: insertSortedBy lt v xs

def stableSortBy (lt : α → α → Bool) (l : List α) : List α :=
  l.foldl (fun acc v => insertSortedBy lt v acc) []

/-!
The incremental engine (`src/bin/vhdl_policyd.rs`).  The dataflow is a
fixed set of monotone joins over weighted relations; after `init(B)`
followed by `delta(D, Rem)` the session contents are exactly the net
multiset `B + D − Rem`, so the stable state is a pure function of the
net tables `T` below.  The definitions assume each net row appears with
weight one (the theorems carry `Nodup` hypotheses); then a derived row's
weight is `1 − (count of matching negated rows)` and the snapshot keeps
the rows with positive weight.
-/

structure EntityRow where
  name : Str
  file : Str
  line : Nat
deriving DecidableEq

structure ArchitectureRow where
  name : Str
  entity_name : Str
  file : Str
  line : Nat
deriving DecidableEq

structure PortRow where
  entity : Str
  name : Str
deriving DecidableEq

structure DependencyRow where
  file : Str
  target : Str
  kind : Str
  line : Nat
deriving DecidableEq

structure Tables where
  entities : List EntityRow
  architectures : List ArchitectureRow
  ports : List PortRow
  dependencies : List DependencyRow
  symbols : List Str
deriving DecidableEq

/-- The daemon's own `is_testbench_name`; unlike the batch helper it does
not treat `bfm` or `verification` as testbench markers. -/
def daemon_is_testbench_name (name : Str) : Bool :=
  let lower := lowerStr name
  containsSub lower (str "_tb") ||
  containsSub lower (str "tb_") ||
  endsWithStr lower (str "tb") ||
  containsSub lower (str "test") ||
  containsSub lower (str "bench")

def portsCountFor (T : Tables) (entity : Str) : Nat :=
  (T.ports.filter (fun p => decide (p.entity = entity))).length

def entityCountByName (T : Tables) (name : Str) : Nat :=
  (T.entities.filter (fun e => decide (e.name = name))).length

def archCountByEntity (T : Tables) (entity : Str) : Nat :=
  (T.architectures.filter (fun a => decide (a.entity_name = entity))).length

def symbolCount (T : Tables) (target : Str) : Nat :=
  (T.symbols.filter (fun s => decide (s = target))).length

def daemonEntitiesWithoutPorts (T : Tables) : List Violation :=
  (T.entities.filter (fun e =>
      decide ((1 : Int) - portsCountFor T e.name > 0) &&
      !daemon_is_testbench_name e.name)).map
    (fun e =>
      { rule := str "entity_has_ports"
        severity := str "warning"
        file := e.file
        line := e.line
        message := entityHasPortsMsg e.name })

def daemonOrphanArch (T : Tables) : List Violation :=
  (T.architectures.filter (fun a =>
      decide ((1 : Int) - entityCountByName T a.entity_name > 0))).map
    (fun a =>
      { rule := str "architecture_has_entity"
        severity := str "error"
        file := a.file
        line := a.line
        message := orphanArchMsg a.name a.entity_name })

def daemonEntitiesWithoutArch (T : Tables) : List Violation :=
  (T.entities.filter (fun e =>
      decide ((1 : Int) - archCountByEntity T e.name > 0))).map
    (fun e =>
      { rule := str "entity_without_arch"
        severity := str "warning"
        file := e.file
        line := e.line
        message := entityWithoutArchMsg e.name })

def daemonUnresolved (T : Tables) : List Violation :=
  (T.dependencies.filter (fun d =>
      decide ((if d.kind = str "instantiation" then (1 : Int) else 0) -
        symbolCount T d.target > 0))).map
    (fun d =>
      { rule := str "unresolved_dependency"
        severity := str "error"
        file := d.file
        line := d.line
        message := unresolvedDepMsg d.target })

/-- The positive-weight violations of the daemon dataflow on net tables
`T`, in relation-definition order (build_response then re-sorts; the
claims compare multisets, so this order is immaterial). -/
def daemonViolations (T : Tables) : List Violation :=
  daemonEntitiesWithoutPorts T ++ daemonOrphanArch T ++
  daemonEntitiesWithoutArch T ++ daemonUnresolved T

structure Summary where
  total_violations : Nat
  errors : Nat
  warnings : Nat
  info : Nat
deriving DecidableEq

def summarize (violations : List Violation) : Summary :=
  { total_violations := violations.length
    errors := violations.countP (fun v => decide (v.severity = str "error"))
    warnings := violations.countP (fun v => decide (v.severity = str "warning"))
    info := violations.countP (fun v => decide (v.severity = str "info")) }

structure Response where
  kind : Str
  summary : Summary
  violations : List Violation
deriving DecidableEq

/-- Rust comparator `a.file.cmp(&b.file).then(a.line.cmp(&b.line))` being
`Less`. -/
def sortKeyLt (a b : Violation) : Bool :=
  strLt a.file b.file || (decide (a.file = b.file) && decide (a.line < b.line))

/-- `build_response` of the daemon.  The argument models the violation
count map in its (unspecified) `HashMap` iteration order as a sequence of
(key, weight) pairs. -/
def build_response (entries : List (Violation × Int)) : Response :=
  let list := (entries.filter (fun p => decide (p.2 > 0))).map (·.1)
  let sorted := stableSortBy sortKeyLt list
  { kind := str "snapshot", summary := summarize sorted, violations := sorted }

/-!
Verification planner (`src/policy/verification.rs`): the missing-check
synthesis pass.  The `CheckRegistry` (external JSON) and the
`tags_by_scope` map are parameters, exactly as in the Rust functions.
-/

structure CheckEntry where
  id : Str
  scope_type : Str
  required_bindings : List Str
  needs_cover : Bool
  severity : Str
  requires_bound : Bool
deriving DecidableEq

inductive ConstructKind where
  | fsm
  | counter
  | readyValid
  | fifo
deriving DecidableEq

def kindLabel : ConstructKind → Str
  | ConstructKind.fsm => str "fsm"
  | ConstructKind.counter => str "counter"
  | ConstructKind.readyValid => str "ready_valid"
  | ConstructKind.fifo => str "fifo"

structure Construct where
  kind : ConstructKind
  in_arch : Str
  file : Str
  line : Nat
  bindings : List (Str × Str)
deriving DecidableEq

def required_checks_for_construct : ConstructKind → List Str
  | ConstructKind.fsm =>
    [str "fsm.legal_state", str "fsm.reset_known", str "cover.fsm.transition_taken"]
  | ConstructKind.readyValid =>
    [str "rv.stable_while_stalled", str "cover.rv.handshake"]
  | ConstructKind.fifo =>
    [str "fifo.no_read_empty", str "fifo.no_write_full", str "cover.fifo.activity"]
  | ConstructKind.counter =>
    [str "ctr.range", str "ctr.step_rule", str "cover.ctr.moved"]

def registryGet (registry : List CheckEntry) (id : Str) : Option CheckEntry :=
  registry.find? (fun e => decide (e.id = id))

def joinStr (sep : Str) : List Str → Str
  | [] => []
  | [x] => x
  | x :: xs => x ++ sep ++ joinStr sep xs

def format_bindings (bindings : List (Str × Str)) : Str :=
  if bindings.isEmpty then []
  else
    joinStr (str ", ")
      ((stableSortBy (fun a b => strLt a.1 b.1) bindings).map (fun p => p.1 ++ str "=" ++ p.2))

def anchor_for_arch (input : Input) (arch : Str) : VerificationAnchor :=
  match input.verification_blocks.find? (fun block => eqIgnoreCase block.in_arch arch) with
  | some block =>
    { label := block.label, line_start := block.line_start, line_end := block.line_end
      exists_flag := true }
  | none =>
    match input.architectures.find? (fun a => eqIgnoreCase a.name arch) with
    | some a =>
      { label := str "architecture", line_start := a.line, line_end := a.line
        exists_flag := false }
    | none =>
      { label := str "unknown", line_start := 1, line_end := 1, exists_flag := false }

def anchor_line_for_arch (input : Input) (arch : Str) : Nat :=
  (anchor_for_arch input arch).line_start

def normalize_severity (sev : Str) : Str :=
  if decide (sev = str "error") || decide (sev = str "warning") || decide (sev = str "info")
  then sev else str "warning"

def missingCheckMsg (check_id : Str) (kind : ConstructKind) (scope_key : Str)
    (anchor : Nat) (bindings : Str) : Str :=
  if bindings.isEmpty then
    str "Missing verification check '" ++ check_id ++ str "' for " ++ kindLabel kind ++
    str " in " ++ scope_key ++ str " (anchor line " ++ natStr anchor ++ str ")"
  else
    str "Missing verification check '" ++ check_id ++ str "' for " ++ kindLabel kind ++
    str " in " ++ scope_key ++ str " (anchor line " ++ natStr anchor ++
    str ", bindings: " ++ bindings ++ str ")"

def missing_check_details (input : Input) (construct : Construct) (scope_key check_id : Str)
    (registry : List CheckEntry) : Str × Str :=
  let severity :=
    match registryGet registry (lowerStr check_id) with
    | some entry => normalize_severity entry.severity
    | none => str "warning"
  let anchor := anchor_line_for_arch input construct.in_arch
  (severity,
   missingCheckMsg check_id construct.kind scope_key anchor (format_bindings construct.bindings))

def scope_matches (scope_type scope : Str) : Bool :=
  if scope_type.isEmpty then true
  else eqIgnoreCase (trimStr ((splitOnChar ':' scope).headD [])) scope_type

def bindingsGet (bindings : List (Str × Str)) (k : Str) : Str :=
  match bindings.find? (fun p => decide (p.1 = k)) with
  | some p => p.2
  | none => []

def missing_required_bindings (entry : CheckEntry) (tag : VerificationTag) : List Str :=
  entry.required_bindings.filter (fun binding =>
    match tag.bindings.find? (fun p => decide (p.1 = binding)) with
    | some p => (trimStr p.2).isEmpty
    | none => true)

def tag_is_valid (tag : VerificationTag) (registry : List CheckEntry) : Bool :=
  match registryGet registry (lowerStr tag.id) with
  | none => false
  | some entry =>
    scope_matches entry.scope_type tag.scope &&
    (missing_required_bindings entry tag).isEmpty &&
    !(entry.requires_bound && (trimStr (bindingsGet tag.bindings (str "bound"))).isEmpty)

/-- The lowercased ids of the valid tags registered under a scope key
(the `tag_ids` set of `missing_check_violations`/`missing_check_tasks`);
`tagsByScope` models the `tags_by_scope` map. -/
def tagIdsForScope (tagsByScope : Str → List VerificationTag) (registry : List CheckEntry)
    (scope_key : Str) : List Str :=
  (((tagsByScope scope_key).filter (fun tag => tag_is_valid tag registry)).map
    (fun tag => lowerStr tag.id))

def notes_for_missing_checks (registry : List CheckEntry) (checks : List Str) : List Str :=
  checks.flatMap (fun check =>
    match registryGet registry (lowerStr check) with
    | some entry =>
      (if entry.needs_cover then [check ++ str " needs cover companion"] else []) ++
      (if entry.requires_bound then [check ++ str " requires explicit bound"] else [])
    | none => [])

def mcvIds (input : Input) (registry : List CheckEntry) (construct : Construct)
    (scope_key : Str) (tag_ids : List Str) :
    List Str → List Str → List Violation × List Str
  | [], emitted => ([], emitted)
  | check_id :: ids, emitted =>
    let check_lower := lowerStr check_id
    if tag_ids.any (fun t => decide (t = check_lower)) then
      mcvIds input registry construct scope_key tag_ids ids emitted
    else
      let key := scope_key ++ str "::" ++ check_lower
      if emitted.any (fun k => decide (k = key)) then
        mcvIds input registry construct scope_key tag_ids ids emitted
      else
        let details := missing_check_details input construct scope_key check_id registry
        let rec_result := mcvIds input registry construct scope_key tag_ids ids (key :: emitted)
        ({ rule := str "missing_verification_check"
           severity := details.1
           file := construct.file
           line := construct.line
           message := details.2 } :: rec_result.1, rec_result.2)

def mcvGo (input : Input) (tagsByScope : Str → List VerificationTag)
    (registry : List CheckEntry) : List Construct → List Str → List Violation
  | [], _ => []
  | construct :: rest, emitted =>
    let scope_key := str "arch:" ++ lowerStr construct.in_arch
    let tag_ids := tagIdsForScope tagsByScope registry scope_key
    let step := mcvIds input registry construct scope_key tag_ids
      (required_checks_for_construct construct.kind) emitted
    step.1 ++ mcvGo input tagsByScope registry rest step.2

def missing_check_violations (input : Input) (constructs : List Construct)
    (tagsByScope : Str → List VerificationTag) (registry : List CheckEntry) :
    List Violation :=
  mcvGo input tagsByScope registry constructs []

def missingIdsFor (tagsByScope : Str → List VerificationTag) (registry : List CheckEntry)
    (construct : Construct) : List Str :=
  let scope_key := str "arch:" ++ lowerStr construct.in_arch
  let tag_ids := tagIdsForScope tagsByScope registry scope_key
  (required_checks_for_construct construct.kind).filter (fun check_id =>
    !(tag_ids.any (fun t => decide (t = lowerStr check_id))))

def taskKey (construct : Construct) : Str :=
  (str "arch:" ++ lowerStr construct.in_arch) ++ str ":" ++ kindLabel construct.kind ++
  str ":" ++ format_bindings construct.bindings

def mctGo (input : Input) (tagsByScope : Str → List VerificationTag)
    (registry : List CheckEntry) : List Construct → List Str → List MissingCheckTask
  | [], _ => []
  | construct :: rest, seen =>
    let scope_key := str "arch:" ++ lowerStr construct.in_arch
    let missing_ids := missingIdsFor tagsByScope registry construct
    if missing_ids.isEmpty then mctGo input tagsByScope registry rest seen
    else
      let key := taskKey construct
      if seen.any (fun k => decide (k = key)) then mctGo input tagsByScope registry rest seen
      else
        { file := construct.file
          scope := scope_key
          anchor := anchor_for_arch input construct.in_arch
          missing_ids := missing_ids
          bindings := construct.bindings
          notes := notes_for_missing_checks registry missing_ids } ::
        mctGo input tagsByScope registry rest (key :: seen)

def missing_check_tasks (input : Input) (constructs : List Construct)
    (tagsByScope : Str → List VerificationTag) (registry : List CheckEntry) :
    List MissingCheckTask :=
  mctGo input tagsByScope registry constructs []

/-!
Theorems.  Each claim of the specification gets one theorem below,
together with a witness (for hypotheses) or a counterexample.
-/

/-- The severity-override step of `filter_violations`, factored out. -/
def overrideSeverity (input : Input) (v : Violation) : Violation :=
  match get_rule_severity input v.rule with
  | some sev => if is_valid_severity sev then { v with severity := sev } else v
  | none => v

theorem overrideSeverity_fields (input : Input) (v : Violation) :
    (overrideSeverity input v).rule = v.rule ∧
    (overrideSeverity input v).file = v.file ∧
    (overrideSeverity input v).line = v.line ∧
    (overrideSeverity input v).message = v.message := by
  unfold overrideSeverity
  cases get_rule_severity input v.rule with
  | none => exact ⟨rfl, rfl, rfl, rfl⟩
  | some sev =>
    by_cases h : is_valid_severity sev
    · simp [h]
    · simp [h]

theorem filter_violations_eq (input : Input) (vs : List Violation) :
    filter_violations input vs =
    (vs.filter (fun v =>
      !rule_is_disabled input v.rule && !is_third_party_file input v.file)).map
      (overrideSeverity input) := by
  induction vs with
  | nil => rfl
  | cons v rest ih =>
    simp only [filter_violations] at ih ⊢
    rw [List.filterMap_cons, List.filter_cons]
    by_cases h1 : rule_is_disabled input v.rule
    · simp only [h1, if_true, Bool.not_true, Bool.false_and, Bool.false_eq_true, if_false]
      exact ih
    · by_cases h2 : is_third_party_file input v.file
      · simp only [h1, h2, if_true, Bool.not_true, Bool.not_false, Bool.and_false,
          Bool.false_eq_true, if_false]
        exact ih
      · have hcond : (!rule_is_disabled input v.rule && !is_third_party_file input v.file)
            = true := by
          simp [h1, h2]
        rw [hcond]
        simp only [if_true]
        have hbranch : (if rule_is_disabled input v.rule then (none : Option Violation)
            else if is_third_party_file input v.file then none
            else match get_rule_severity input v.rule with
              | some sev =>
                if is_valid_severity sev then some { v with severity := sev } else some v
              | none => some v) = some (overrideSeverity input v) := by
          rw [if_neg (by simpa using h1), if_neg (by simpa using h2)]
          unfold overrideSeverity
          cases get_rule_severity input v.rule with
          | none => rfl
          | some sev =>
            by_cases hv : is_valid_severity sev
            · simp [hv]
            · simp [hv]
        rw [hbranch, List.map_cons]
        rw [ih]

/-- C8: if the configuration maps rule `R` to a valid severity
`S ∈ {error, warning, info}`, every violation with rule `R` surviving
`filter_violations` carries severity `S`; if it maps `R` to any other
non-`off` string the surviving violations with rule `R` are emitted
verbatim (default severity kept); and filtering never alters the rule,
file, line or message of a violation. -/
theorem C8_severity_override (input : Input) (R S : Str) (vs : List Violation)
    (hmap : lookupRule input R = some S) :
    (is_valid_severity S = true →
      ∀ v ∈ filter_violations input vs, v.rule = R → v.severity = S) ∧
    (is_valid_severity S = false → S ≠ str "off" →
      ∀ v ∈ filter_violations input vs, v.rule = R → v ∈ vs) ∧
    (∀ v ∈ filter_violations input vs,
      ∃ w ∈ vs, w.rule = v.rule ∧ w.file = v.file ∧ w.line = v.line ∧
        w.message = v.message) := by
  refine ⟨?_, ?_, ?_⟩
  · intro hvalid v hv hrule
    rw [filter_violations_eq] at hv
    obtain ⟨w, _, rfl⟩ := List.mem_map.mp hv
    have hwr : w.rule = R := by
      have := (overrideSeverity_fields input w).1
      rw [← this]; exact hrule
    have hget : get_rule_severity input w.rule = some S := by
      rw [get_rule_severity, hwr]; exact hmap
    simp [overrideSeverity, hget, hvalid]
  · intro hinvalid _ v hv hrule
    rw [filter_violations_eq] at hv
    obtain ⟨w, hw, rfl⟩ := List.mem_map.mp hv
    have hwr : w.rule = R := by
      have := (overrideSeverity_fields input w).1
      rw [← this]; exact hrule
    have hget : get_rule_severity input w.rule = some S := by
      rw [get_rule_severity, hwr]; exact hmap
    have : overrideSeverity input w = w := by
      simp [overrideSeverity, hget, hinvalid]
    rw [this]
    exact List.mem_of_mem_filter hw
  · intro v hv
    rw [filter_violations_eq] at hv
    obtain ⟨w, hw, rfl⟩ := List.mem_map.mp hv
    exact ⟨w, List.mem_of_mem_filter hw,
      (overrideSeverity_fields input w).1.symm,
      (overrideSeverity_fields input w).2.1.symm,
      (overrideSeverity_fields input w).2.2.1.symm,
      (overrideSeverity_fields input w).2.2.2.symm⟩

def c8Input : Input :=
  { emptyInput with lint_config := [(str "entity_has_ports", str "error")] }

def c8Violation : Violation :=
  { rule := str "entity_has_ports", severity := str "warning", file := str "a.vhd"
    line := 1, message := str "m" }

theorem C8_severity_override_witness :
    lookupRule c8Input (str "entity_has_ports") = some (str "error") ∧
    ((is_valid_severity (str "error") = true →
      ∀ v ∈ filter_violations c8Input [c8Violation],
        v.rule = str "entity_has_ports" → v.severity = str "error") ∧
    (is_valid_severity (str "error") = false → str "error" ≠ str "off" →
      ∀ v ∈ filter_violations c8Input [c8Violation],
        v.rule = str "entity_has_ports" → v ∈ [c8Violation]) ∧
    (∀ v ∈ filter_violations c8Input [c8Violation],
      ∃ w ∈ [c8Violation], w.rule = v.rule ∧ w.file = v.file ∧ w.line = v.line ∧
        w.message = v.message)) :=
  ⟨by decide,
   C8_severity_override c8Input (str "entity_has_ports") (str "error") [c8Violation]
     (by decide)⟩

/-- C10: mapping `missing_verification_check` to `off` empties the
missing-check task list, mapping `ambiguous_construct` to `off` empties
the ambiguity list, and third-party records never survive either
filter. -/
theorem C10_off_and_third_party_filtering (input : Input)
    (tasks : List MissingCheckTask) (items : List AmbiguousConstruct) :
    (lookupRule input (str "missing_verification_check") = some (str "off") →
      filter_missing_checks input tasks = []) ∧
    (lookupRule input (str "ambiguous_construct") = some (str "off") →
      filter_ambiguous_constructs input items = []) ∧
    (∀ t ∈ filter_missing_checks input tasks,
      is_third_party_file input t.file = false) ∧
    (∀ a ∈ filter_ambiguous_constructs input items,
      is_third_party_file input a.file = false) := by
  refine ⟨?_, ?_, ?_, ?_⟩
  · intro h
    simp [filter_missing_checks, rule_is_disabled, h]
  · intro h
    simp [filter_ambiguous_constructs, rule_is_disabled, h]
  · intro t ht
    unfold filter_missing_checks at ht
    by_cases h : rule_is_disabled input (str "missing_verification_check")
    · simp [h] at ht
    · simp only [h, if_neg, Bool.false_eq_true, if_false] at ht
      have := List.of_mem_filter ht
      simpa using this
  · intro a ha
    unfold filter_ambiguous_constructs at ha
    by_cases h : rule_is_disabled input (str "ambiguous_construct")
    · simp [h] at ha
    · simp only [h, if_neg, Bool.false_eq_true, if_false] at ha
      have := List.of_mem_filter ha
      simpa using this

def c10Input : Input :=
  { emptyInput with
    lint_config := [(str "missing_verification_check", str "off"),
                    (str "ambiguous_construct", str "off")]
    third_party_files := [str "vendor.vhd"] }

def c10Task : MissingCheckTask :=
  { file := str "a.vhd", scope := str "arch:rtl"
    anchor := { label := str "architecture", line_start := 2, line_end := 2
                exists_flag := false }
    missing_ids := [str "fsm.legal_state"], bindings := [], notes := [] }

def c10Ambiguous : AmbiguousConstruct :=
  { kind := str "ready_valid", scope := str "arch:rtl", file := str "a.vhd", line := 3 }

theorem C10_off_and_third_party_filtering_witness :
    lookupRule c10Input (str "missing_verification_check") = some (str "off") ∧
    lookupRule c10Input (str "ambiguous_construct") = some (str "off") ∧
    filter_missing_checks c10Input [c10Task] = [] ∧
    filter_ambiguous_constructs c10Input [c10Ambiguous] = [] :=
  ⟨by decide, by decide,
   (C10_off_and_third_party_filtering c10Input [c10Task] [c10Ambiguous]).1 (by decide),
   (C10_off_and_third_party_filtering c10Input [c10Task] [c10Ambiguous]).2.1 (by decide)⟩

theorem strLt_trans (a b c : Str) (hab : strLt a b = true) (hbc : strLt b c = true) :
    strLt a c = true := by
  induction a generalizing b c with
  | nil =>
    cases b with
    | nil => simp [strLt] at hab
    | cons y ys =>
      cases c with
      | nil => simp [strLt] at hbc
      | cons z zs => simp [strLt]
  | cons x xs ih =>
    cases b with
    | nil => simp [strLt] at hab
    | cons y ys =>
      cases c with
      | nil => simp [strLt] at hbc
      | cons z zs =>
        simp only [strLt] at hab hbc ⊢
        by_cases hxy : x.toNat < y.toNat
        · by_cases hyz : y.toNat < z.toNat
          · simp [Nat.lt_trans hxy hyz]
          · by_cases hzy : z.toNat < y.toNat
            · simp [hyz, hzy] at hbc
            · have : y.toNat = z.toNat := Nat.le_antisymm (Nat.not_lt.mp hzy) (Nat.not_lt.mp hyz)
              simp [this ▸ hxy]
        · by_cases hyx : y.toNat < x.toNat
          · simp [hxy, hyx] at hab
          · have hxyeq : x.toNat = y.toNat := Nat.le_antisymm (Nat.not_lt.mp hyx) (Nat.not_lt.mp hxy)
            simp only [hxy, hyx, if_false] at hab
            by_cases hyz : y.toNat < z.toNat
            · simp [hxyeq ▸ hyz]
            · by_cases hzy : z.toNat < y.toNat
              · simp [hyz, hzy] at hbc
              · simp only [hyz, hzy, if_false] at hbc
                have h1 : ¬ x.toNat < z.toNat := by omega
                have h2 : ¬ z.toNat < x.toNat := by omega
                simp [h1, h2, ih ys zs hab hbc]

theorem sortKeyLt_trans (a b c : Violation) (hab : sortKeyLt a b = true)
    (hbc : sortKeyLt b c = true) : sortKeyLt a c = true := by
  simp only [sortKeyLt, Bool.or_eq_true, Bool.and_eq_true, decide_eq_true_eq] at hab hbc ⊢
  rcases hab with h1 | ⟨he1, hl1⟩
  · rcases hbc with h2 | ⟨he2, hl2⟩
    · exact Or.inl (strLt_trans _ _ _ h1 h2)
    · exact Or.inl (he2 ▸ h1)
  · rcases hbc with h2 | ⟨he2, hl2⟩
    · exact Or.inl (he1 ▸ h2)
    · exact Or.inr ⟨he1.trans he2, Nat.lt_trans hl1 hl2⟩

theorem sortKeyLt_asymm (a b : Violation) (hab : sortKeyLt a b = true) :
    sortKeyLt b a = false := by
  simp only [sortKeyLt, Bool.or_eq_true, Bool.and_eq_true, decide_eq_true_eq] at hab
  simp only [sortKeyLt, Bool.or_eq_false_iff, Bool.and_eq_false_iff]
  rcases hab with h1 | ⟨he, hl⟩
  · constructor
    · exact strLt_asymm _ _ h1
    · left
      simp only [decide_eq_false_iff_not]
      intro he
      rw [he] at h1
      rw [strLt_irrefl] at h1
      exact Bool.false_ne_true h1
  · constructor
    · rw [he, strLt_irrefl]
    · right
      simp only [decide_eq_false_iff_not]
      omega

theorem mem_insertSortedBy (lt : α → α → Bool) (v z : α) (l : List α) :
    z ∈ insertSortedBy lt v l ↔ z = v ∨ z ∈ l := by
  induction l with
  | nil => simp [insertSortedBy]
  | cons x xs ih =>
    simp only [insertSortedBy]
    by_cases h : lt v x
    · simp [h]
    · simp only [h, Bool.false_eq_true, if_false, List.mem_cons, ih]
      tauto

theorem pairwise_insertSortedBy (lt : α → α → Bool)
    (htrans : ∀ a b c, lt a b = true → lt b c = true → lt a c = true)
    (hasymm : ∀ a b, lt a b = true → lt b a = false)
    (v : α) (l : List α) (h : l.Pairwise (fun a b => lt b a = false)) :
    (insertSortedBy lt v l).Pairwise (fun a b => lt b a = false) := by
  induction l with
  | nil => simp [insertSortedBy]
  | cons x xs ih =>
    rw [List.pairwise_cons] at h
    obtain ⟨hx, hxs⟩ := h
    simp only [insertSortedBy]
    by_cases hvx : lt v x
    · simp only [hvx, if_true]
      rw [List.pairwise_cons]
      refine ⟨?_, List.Pairwise.cons hx hxs⟩
      intro y hy
      rcases List.mem_cons.mp hy with rfl | hy'
      · exact hasymm _ _ hvx
      · have hyx := hx y hy'
        by_cases hyv : lt y v
        · have := htrans _ _ _ hyv hvx
          rw [this] at hyx
          exact absurd hyx (by simp)
        · simpa using hyv
    · simp only [hvx, Bool.false_eq_true, if_false]
      rw [List.pairwise_cons]
      refine ⟨?_, ih hxs⟩
      intro z hz
      rcases (mem_insertSortedBy lt v z xs).mp hz with rfl | hz'
      · simpa using hvx
      · exact hx z hz'

theorem insertSortedBy_perm (lt : α → α → Bool) (v : α) (l : List α) :
    (insertSortedBy lt v l).Perm (v :: l) := by
  induction l with
  | nil => simp [insertSortedBy]
  | cons x xs ih =>
    simp only [insertSortedBy]
    by_cases h : lt v x
    · simp [h]
    · simp only [h, Bool.false_eq_true, if_false]
      have h1 : (x :: insertSortedBy lt v xs).Perm (x :: v :: xs) := List.Perm.cons x ih
      have h2 : (x :: v :: xs).Perm (v :: x :: xs) := List.Perm.swap v x xs
      exact h1.trans h2

theorem stableSortBy_pairwise (lt : α → α → Bool)
    (htrans : ∀ a b c, lt a b = true → lt b c = true → lt a c = true)
    (hasymm : ∀ a b, lt a b = true → lt b a = false)
    (l : List α) :
    (stableSortBy lt l).Pairwise (fun a b => lt b a = false) := by
  suffices h : ∀ acc : List α, acc.Pairwise (fun a b => lt b a = false) →
      (l.foldl (fun acc v => insertSortedBy lt v acc) acc).Pairwise
        (fun a b => lt b a = false) by
    exact h [] (by simp)
  induction l with
  | nil => intro acc hacc; simpa using hacc
  | cons x xs ih =>
    intro acc hacc
    exact ih _ (pairwise_insertSortedBy lt htrans hasymm x acc hacc)

theorem stableSortBy_perm (lt : α → α → Bool) (l : List α) :
    (stableSortBy lt l).Perm l := by
  suffices h : ∀ acc : List α,
      (l.foldl (fun acc v => insertSortedBy lt v acc) acc).Perm (acc ++ l) by
    simpa using h []
  induction l with
  | nil => intro acc; simp
  | cons x xs ih =>
    intro acc
    have h1 : ((x :: xs).foldl (fun acc v => insertSortedBy lt v acc) acc) =
        xs.foldl (fun acc v => insertSortedBy lt v acc) (insertSortedBy lt x acc) := rfl
    rw [h1]
    have h2 := ih (insertSortedBy lt x acc)
    have h3 : (insertSortedBy lt x acc ++ xs).Perm ((x :: acc) ++ xs) :=
      (insertSortedBy_perm lt x acc).append_right xs
    have h5 : (x :: (acc ++ xs)).Perm (acc ++ x :: xs) := List.perm_middle.symm
    exact h2.trans (h3.trans h5)

/-- C9 (amended): every snapshot response's violation list is ordered by
the sort key (file, line) and is a permutation of the positive-weight
entries of the violation-count map; ties on (file, line) keep the map's
iteration order (the code applies no further tie-break), so the order is
not the lexicographic one the spec describes. -/
theorem C9_snapshot_sorted_by_file_line (entries : List (Violation × Int)) :
    (build_response entries).violations.Pairwise (fun a b => sortKeyLt b a = false) ∧
    (build_response entries).violations.Perm
      ((entries.filter (fun p => decide (p.2 > 0))).map (·.1)) := by
  constructor
  · exact stableSortBy_pairwise sortKeyLt sortKeyLt_trans sortKeyLt_asymm _
  · exact stableSortBy_perm sortKeyLt _

def c9v1 : Violation :=
  { rule := str "a_rule", severity := str "warning", file := str "f.vhd", line := 1
    message := str "m1" }

def c9v2 : Violation :=
  { rule := str "b_rule", severity := str "warning", file := str "f.vhd", line := 1
    message := str "m2" }

/-- C9 counterexample: two violation-count maps holding the same entries
(a permutation, i.e. the same fact-derived multiset) produce different
snapshot orders when two violations share (file, line): the emitted order
is not a deterministic function of the fact set, and equal keys are not
ordered by the remaining fields. -/
theorem C9_counterexample :
    List.Perm [(c9v1, (1 : Int)), (c9v2, 1)] [(c9v2, (1 : Int)), (c9v1, 1)] ∧
    (build_response [(c9v1, 1), (c9v2, 1)]).violations ≠
      (build_response [(c9v2, 1), (c9v1, 1)]).violations ∧
    (build_response [(c9v2, 1), (c9v1, 1)]).violations = [c9v2, c9v1] := by
  refine ⟨List.Perm.swap (c9v2, 1) (c9v1, 1) [], ?_, ?_⟩
  · decide
  · decide

theorem countP_flatMap (p : β → Bool) (f : α → List β) (l : List α) :
    (l.flatMap f).countP p = (l.map (fun a => (f a).countP p)).sum := by
  induction l with
  | nil => rfl
  | cons x xs ih => simp [List.flatMap_cons, List.countP_append, ih]

theorem countP_filterMap (p : β → Bool) (f : α → Option β) (l : List α) :
    (l.filterMap f).countP p =
    l.countP (fun a => match f a with | some b => p b | none => false) := by
  induction l with
  | nil => rfl
  | cons x xs ih =>
    cases hx : f x with
    | none => simp [List.filterMap_cons, List.countP_cons, hx, ih]
    | some b => simp [List.filterMap_cons, List.countP_cons, hx, ih]

theorem countP_eq_one_unique {q : α → Bool} {l : List α} (h : l.countP q = 1)
    {a : α} (ha : a ∈ l) (hqa : q a = true) :
    ∀ b ∈ l, q b = true → b = a := by
  intro b hb hqb
  have hfa : a ∈ l.filter q := List.mem_filter.mpr ⟨ha, hqa⟩
  have hfb : b ∈ l.filter q := List.mem_filter.mpr ⟨hb, hqb⟩
  rw [List.countP_eq_length_filter] at h
  obtain ⟨x, hx⟩ := List.length_eq_one.mp h
  rw [hx] at hfa hfb
  exact (List.mem_singleton.mp hfb).trans (List.mem_singleton.mp hfa).symm

theorem sum_map_ite_countP (q : α → Bool) (k : Nat) (l : List α) :
    (l.map (fun a => if q a then k else 0)).sum = l.countP q * k := by
  induction l with
  | nil => simp
  | cons x xs ih =>
    rw [List.map_cons, List.sum_cons, List.countP_cons, ih]
    by_cases h : q x
    · simp [h, Nat.add_mul, Nat.add_comm]
    · simp [h]

theorem rcdMsg_inj (r c1 x y : Str) (h : rcdMsg r c1 x = rcdMsg r c1 y) : x = y := by
  unfold rcdMsg at h
  exact List.append_cancel_left (List.append_cancel_right h)

/-- The violation `reset_crosses_domains` emits for an ordered process
pair. -/
def rcdViolation (p1 p2 : Process) : Violation :=
  { rule := str "reset_crosses_domains"
    severity := str "error"
    file := p1.file
    line := p1.line
    message := rcdMsg p1.reset_signal p1.clock_signal p2.clock_signal }

/-- The condition under which the inner loop of `reset_crosses_domains`
emits for the ordered pair `(p1, q2)`. -/
def rcdPairCond (p1 q2 : Process) : Bool :=
  q2.has_reset && decide (q2.reset_signal = p1.reset_signal) &&
  !p1.clock_signal.isEmpty && !q2.clock_signal.isEmpty &&
  decide (p1.clock_signal ≠ q2.clock_signal) && decide (p1.line < q2.line)

theorem rcdInner_eq (p1 q2 : Process) :
    rcdInner p1 q2 = (if rcdPairCond p1 q2 then some (rcdViolation p1 q2) else none) := by
  unfold rcdInner rcdPairCond rcdViolation
  by_cases h1 : q2.has_reset
  · by_cases h2 : q2.reset_signal = p1.reset_signal
    · by_cases h3 : p1.clock_signal.isEmpty
      · simp [h1, h2, h3]
      · by_cases h4 : q2.clock_signal.isEmpty
        · simp [h1, h2, h3, h4]
        · by_cases h5 : p1.clock_signal = q2.clock_signal
          · simp [h1, h2, h3, h4, h5]
          · by_cases h6 : q2.line ≤ p1.line
            · simp [h1, h2, h3, h4, h5, h6, Nat.not_lt.mpr h6]
            · simp [h1, h2, h3, h4, h5, h6, Nat.not_le.mp h6]
    · simp [h1, h2]
  · simp [h1]

theorem rcdOuter_countP (I : Input) (p1 p2 : Process) (q1 : Process)
    (hr1 : p1.has_reset = true) (hrs : p1.reset_signal ≠ [])
    (hq1loc : q1.file = p1.file → q1.line = p1.line → q1 = p1) :
    (rcdOuter I q1).countP (fun v => decide (v = rcdViolation p1 p2)) =
    if decide (q1.file = p1.file) && decide (q1.line = p1.line) then
      I.processes.countP (fun q => rcdPairCond p1 q &&
        decide (q.clock_signal = p2.clock_signal))
    else 0 := by
  by_cases hloc : (decide (q1.file = p1.file) && decide (q1.line = p1.line)) = true
  · have hq1p1 : q1 = p1 := by
      simp only [Bool.and_eq_true, decide_eq_true_eq] at hloc
      exact hq1loc hloc.1 hloc.2
    subst hq1p1
    rw [hloc, if_pos rfl]
    unfold rcdOuter
    by_cases hg : (!q1.has_reset || q1.reset_signal.isEmpty) = true
    · exfalso
      simp only [Bool.or_eq_true, Bool.not_eq_true'] at hg
      rcases hg with hg | hg
      · rw [hr1] at hg
        cases hg
      · cases hx : q1.reset_signal with
        | nil => exact hrs hx
        | cons a t =>
          rw [hx] at hg
          cases hg
    · rw [if_neg hg]
      rw [countP_filterMap]
      apply List.countP_congr
      intro q2 hq2
      rw [rcdInner_eq q1 q2]
      by_cases hpc : rcdPairCond q1 q2
      · simp only [hpc, if_true]
        by_cases hck : q2.clock_signal = p2.clock_signal
        · have he : rcdViolation q1 q2 = rcdViolation q1 p2 := by
            unfold rcdViolation
            rw [hck]
          simp [he, hpc, hck]
        · have hne : rcdViolation q1 q2 ≠ rcdViolation q1 p2 := by
            intro he
            apply hck
            have hm := congrArg Violation.message he
            simp only [rcdViolation] at hm
            exact rcdMsg_inj _ _ _ _ hm
          simp [hne, hpc, hck]
      · simp [hpc]
  · have hlocF : (decide (q1.file = p1.file) && decide (q1.line = p1.line)) = false := by
      simpa using hloc
    rw [hlocF]
    simp only [Bool.false_eq_true, if_false]
    rw [List.countP_eq_zero]
    intro v hv
    unfold rcdOuter at hv
    by_cases hg : (!q1.has_reset || q1.reset_signal.isEmpty) = true
    · rw [if_pos hg] at hv
      cases hv
    · rw [if_neg hg] at hv
      rw [List.mem_filterMap] at hv
      obtain ⟨q2, _, hq2⟩ := hv
      rw [rcdInner_eq q1 q2] at hq2
      by_cases hpc : rcdPairCond q1 q2
      · rw [if_pos hpc] at hq2
        have hveq := Option.some.inj hq2
        simp only [decide_eq_true_eq]
        intro hvp
        apply hloc
        have hf := congrArg Violation.file hvp
        have hl := congrArg Violation.line hvp
        rw [← hveq] at hf hl
        simp only [rcdViolation] at hf hl
        simp [hf, hl]
      · rw [if_neg hpc] at hq2
        cases hq2

/-- C6 (amended): processes `p1`, `p2` that both have `has_reset`, share
the same non-empty `reset_signal`, have different non-empty clock
signals and distinct lines yield the `reset_crosses_domains` error
attributed to the smaller-line process `p1`; when `p1` is the only
process at its (file, line) and `p2`'s clock identifies the partner
uniquely, the error appears exactly once.  Pairs with equal line numbers
produce nothing (see the counterexample). -/
theorem C6_reset_crosses_domains (I : Input) (p1 p2 : Process)
    (h1 : p1 ∈ I.processes) (h2 : p2 ∈ I.processes)
    (hr1 : p1.has_reset = true) (hr2 : p2.has_reset = true)
    (hrs : p1.reset_signal ≠ []) (hshare : p2.reset_signal = p1.reset_signal)
    (hc1 : p1.clock_signal ≠ []) (hc2 : p2.clock_signal ≠ [])
    (hdiff : p1.clock_signal ≠ p2.clock_signal)
    (hline : p1.line < p2.line) :
    rcdViolation p1 p2 ∈ reset_crosses_domains I ∧
    (I.processes.countP
        (fun q => decide (q.file = p1.file) && decide (q.line = p1.line)) = 1 →
      I.processes.countP
        (fun q => rcdPairCond p1 q && decide (q.clock_signal = p2.clock_signal)) = 1 →
      (reset_crosses_domains I).countP
        (fun v => decide (v = rcdViolation p1 p2)) = 1) := by
  have hrsE : p1.reset_signal.isEmpty = false := by
    cases hx : p1.reset_signal with
    | nil => exact absurd hx hrs
    | cons a t => rfl
  have hc1E : p1.clock_signal.isEmpty = false := by
    cases hx : p1.clock_signal with
    | nil => exact absurd hx hc1
    | cons a t => rfl
  have hc2E : p2.clock_signal.isEmpty = false := by
    cases hx : p2.clock_signal with
    | nil => exact absurd hx hc2
    | cons a t => rfl
  have hcond : rcdPairCond p1 p2 = true := by
    simp [rcdPairCond, hr2, hshare, hc1E, hc2E, hdiff, hline]
  constructor
  · unfold reset_crosses_domains
    rw [List.mem_flatMap]
    refine ⟨p1, h1, ?_⟩
    unfold rcdOuter
    rw [if_neg (by simp [hr1, hrsE])]
    rw [List.mem_filterMap]
    exact ⟨p2, h2, by rw [rcdInner_eq p1 p2, if_pos hcond]⟩
  · intro hA hB
    unfold reset_crosses_domains
    rw [countP_flatMap]
    have hpoint : ∀ q1 ∈ I.processes,
        (rcdOuter I q1).countP (fun v => decide (v = rcdViolation p1 p2)) =
        (fun q1 => if decide (q1.file = p1.file) && decide (q1.line = p1.line) then
          I.processes.countP (fun q => rcdPairCond p1 q &&
            decide (q.clock_signal = p2.clock_signal)) else 0) q1 := by
      intro q1 hq1
      apply rcdOuter_countP I p1 p2 q1 hr1 hrs
      intro hf hl
      exact countP_eq_one_unique hA h1 (by simp) q1 hq1 (by simp [hf, hl])
    rw [List.map_congr_left hpoint]
    rw [sum_map_ite_countP]
    rw [hA, hB]

def c6p1 : Process :=
  { label := str "p1", is_sequential := true, is_combinational := false
    clock_signal := str "clk_a", has_reset := true, reset_signal := str "rst"
    assigned_signals := [], read_signals := [], file := str "a.vhd", line := 1
    in_arch := str "rtl" }

def c6p2 : Process :=
  { label := str "p2", is_sequential := true, is_combinational := false
    clock_signal := str "clk_b", has_reset := true, reset_signal := str "rst"
    assigned_signals := [], read_signals := [], file := str "a.vhd", line := 2
    in_arch := str "rtl" }

def c6wInput : Input := { emptyInput with processes := [c6p1, c6p2] }

theorem C6_reset_crosses_domains_witness :
    c6p1 ∈ c6wInput.processes ∧ c6p1.line < c6p2.line ∧
    (rcdViolation c6p1 c6p2 ∈ reset_crosses_domains c6wInput ∧
      (c6wInput.processes.countP
          (fun q => decide (q.file = c6p1.file) && decide (q.line = c6p1.line)) = 1 →
        c6wInput.processes.countP
          (fun q => rcdPairCond c6p1 q &&
            decide (q.clock_signal = c6p2.clock_signal)) = 1 →
        (reset_crosses_domains c6wInput).countP
          (fun v => decide (v = rcdViolation c6p1 c6p2)) = 1)) :=
  ⟨by decide, by decide,
   C6_reset_crosses_domains c6wInput c6p1 c6p2 (by decide) (by decide) (by decide)
     (by decide) (by decide) (by decide) (by decide) (by decide) (by decide) (by decide)⟩

def c6q2 : Process :=
  { label := str "p2", is_sequential := true, is_combinational := false
    clock_signal := str "clk_b", has_reset := true, reset_signal := str "rst"
    assigned_signals := [], read_signals := [], file := str "b.vhd", line := 1
    in_arch := str "rtl" }

def c6cInput : Input := { emptyInput with processes := [c6p1, c6q2] }

/-- C6 counterexample: two processes share the non-empty reset `rst` and
have different non-empty clocks, but sit on the same line number (in
different files); the rule emits nothing, not the one error per pair the
claim requires. -/
theorem C6_counterexample :
    (c6p1 ∈ c6cInput.processes ∧ c6q2 ∈ c6cInput.processes ∧
      c6p1.has_reset = true ∧ c6q2.has_reset = true ∧
      c6q2.reset_signal = c6p1.reset_signal ∧ c6p1.reset_signal ≠ [] ∧
      c6p1.clock_signal ≠ [] ∧ c6q2.clock_signal ≠ [] ∧
      c6q2.clock_signal ≠ c6p1.clock_signal) ∧
    reset_crosses_domains c6cInput = [] := by
  constructor
  · refine ⟨by decide, by decide, by decide, by decide, by decide, by decide,
      by decide, by decide, by decide⟩
  · decide

/-- The violation `multi_driven_signal` emits for a signal with the given
driver count. -/
def mdsViolation (sig : Signal) (drivers : Nat) : Violation :=
  { rule := str "multi_driven_signal"
    severity := str "warning"
    file := sig.file
    line := sig.line
    message := multiDrivenMsg sig.name drivers }

/-- C4 (amended): for a signal that is not in a testbench architecture,
not composite, not resolved, and whose base type is one of the
unresolved scalar types, `multi_driven_signal` warns exactly when the
driver count (processes + non-generate concurrent assignments + distinct
generate labels) exceeds one; the extra scalar-type and testbench
conditions are required by the code (see the counterexample). -/
theorem C4_multi_driven_signal (I : Input) (s : Signal) (hs : s ∈ I.signals)
    (h1 : signal_in_testbench I s = false) (h2 : is_composite_type I s.type = false)
    (h3 : is_resolved_type s.type = false) (h4 : is_unresolved_scalar_type s.type = true)
    (huniq : I.signals.countP
      (fun t => decide (t.file = s.file) && decide (t.line = s.line)) = 1) :
    mdsViolation s (count_drivers_in_entity I s.name s.in_entity s.file) ∈
      multi_driven_signal I ↔
    1 < count_drivers_in_entity I s.name s.in_entity s.file := by
  constructor
  · intro hmem
    unfold multi_driven_signal at hmem
    rw [List.mem_filterMap] at hmem
    obtain ⟨t, ht, hft⟩ := hmem
    by_cases hc : (!signal_in_testbench I t && !is_composite_type I t.type &&
        !is_resolved_type t.type && is_unresolved_scalar_type t.type) = true
    · rw [if_pos hc] at hft
      by_cases hd : count_drivers_in_entity I t.name t.in_entity t.file > 1
      · simp only [hd, if_pos] at hft
        have hv := Option.some.inj hft
        have hf := congrArg Violation.file hv
        have hl := congrArg Violation.line hv
        simp only [mdsViolation] at hf hl
        have hts : t = s :=
          countP_eq_one_unique huniq hs (by simp) t ht (by simp [hf, hl])
        rw [hts] at hd
        exact hd
      · simp only [gt_iff_lt] at hd
        rw [if_neg (by simpa using hd)] at hft
        cases hft
    · rw [if_neg hc] at hft
      cases hft
  · intro hd
    unfold multi_driven_signal
    rw [List.mem_filterMap]
    refine ⟨s, hs, ?_⟩
    rw [if_pos (by simp [h1, h2, h3, h4])]
    simp only [gt_iff_lt]
    rw [if_pos (by simpa using hd)]
    rfl

def c4Arch : Architecture :=
  { name := str "rtl", entity_name := str "ent", file := str "a.vhd", line := 1 }

def c4ProcA : Process :=
  { label := str "pa", is_sequential := true, is_combinational := false
    clock_signal := str "clk", has_reset := false, reset_signal := []
    assigned_signals := [str "s"], read_signals := [], file := str "a.vhd", line := 3
    in_arch := str "rtl" }

def c4ProcB : Process :=
  { label := str "pb", is_sequential := true, is_combinational := false
    clock_signal := str "clk", has_reset := false, reset_signal := []
    assigned_signals := [str "s"], read_signals := [], file := str "a.vhd", line := 4
    in_arch := str "rtl" }

def c4Signal : Signal :=
  { name := str "s", type := str "bit", file := str "a.vhd", line := 2
    in_entity := str "ent", width := 1 }

def c4wInput : Input :=
  { emptyInput with
    architectures := [c4Arch], signals := [c4Signal], processes := [c4ProcA, c4ProcB] }

theorem C4_multi_driven_signal_witness :
    c4Signal ∈ c4wInput.signals ∧
    count_drivers_in_entity c4wInput c4Signal.name c4Signal.in_entity c4Signal.file = 2 ∧
    (mdsViolation c4Signal
        (count_drivers_in_entity c4wInput c4Signal.name c4Signal.in_entity c4Signal.file) ∈
      multi_driven_signal c4wInput ↔
      1 < count_drivers_in_entity c4wInput c4Signal.name c4Signal.in_entity c4Signal.file) :=
  ⟨by decide, by decide,
   C4_multi_driven_signal c4wInput c4Signal (by decide) (by decide) (by decide)
     (by decide) (by decide) (by decide)⟩

def c4EnumSignal : Signal :=
  { name := str "s", type := str "myenum", file := str "a.vhd", line := 2
    in_entity := str "ent", width := 0 }

def c4cInput : Input :=
  { emptyInput with
    architectures := [c4Arch], signals := [c4EnumSignal], processes := [c4ProcA, c4ProcB] }

/-- C4 counterexample: a non-resolved, non-composite signal (a custom
enumeration type) with two process drivers — the claim demands a
`multi_driven_signal` warning, but the rule also requires the type to be
one of the unresolved scalar types, so it emits nothing. -/
theorem C4_counterexample :
    is_composite_type c4cInput c4EnumSignal.type = false ∧
    is_resolved_type c4EnumSignal.type = false ∧
    signal_in_testbench c4cInput c4EnumSignal = false ∧
    count_drivers_in_entity c4cInput c4EnumSignal.name c4EnumSignal.in_entity
      c4EnumSignal.file = 2 ∧
    multi_driven_signal c4cInput = [] := by
  refine ⟨by decide, by decide, by decide, by decide, by decide⟩

/-- The violation `direct_combinational_loop` emits for a self-edge. -/
def directViolation (dep : SignalDep) : Violation :=
  { rule := str "direct_combinational_loop"
    severity := str "error"
    file := dep.file
    line := dep.line
    message := str "Direct combinational loop: signal '" ++ dep.source ++
      str "' depends on itself" }

/-- The violation `two_stage_combinational_loop` emits for the first edge
of a 2-cycle. -/
def twoViolation (dep : SignalDep) : Violation :=
  { rule := str "two_stage_combinational_loop"
    severity := str "error"
    file := dep.file
    line := dep.line
    message := twoStageMsg dep.source dep.target }

theorem edgesContain_append_fresh (F : List SignalDep) (d1 d2 : SignalDep)
    (h2s : d2.source = d1.target) (h2t : d2.target = d1.source)
    (p : Str × Str) (hp1 : p.1 ≠ lowerStr d1.source) (hp2 : p.1 ≠ lowerStr d1.target) :
    edgesContain (F ++ [d1, d2]) p = edgesContain F p := by
  unfold edgesContain
  rw [List.any_append]
  have h2 : List.any [d1, d2] (fun d => decide ((lowerStr d.source, lowerStr d.target) = p))
      = false := by
    simp only [List.any_cons, List.any_nil, Bool.or_false, Bool.or_eq_false_iff,
      decide_eq_false_iff_not]
    constructor
    · intro he
      exact hp1 (by rw [← he])
    · intro he
      rw [h2s, h2t] at he
      exact hp2 (by rw [← he])
  rw [h2, Bool.or_false]

/-- The pair key `two_stage_loop` de-duplicates on, for a given edge. -/
def twoKey (dep : SignalDep) : Str × Str :=
  if strLt (lowerStr dep.source) (lowerStr dep.target) then
    (lowerStr dep.source, lowerStr dep.target)
  else (lowerStr dep.target, lowerStr dep.source)

theorem twoStageGo_nil (deps : List SignalDep) (seen : List (Str × Str)) :
    twoStageGo deps [] seen = [] := rfl

theorem twoStageGo_cons (deps : List SignalDep) (dep : SignalDep)
    (rest : List SignalDep) (seen : List (Str × Str)) :
    twoStageGo deps (dep :: rest) seen =
    (if lowerStr dep.source = lowerStr dep.target then twoStageGo deps rest seen
     else if edgesContain deps (lowerStr dep.target, lowerStr dep.source) then
       (if seen.any (fun k => decide (k = twoKey dep)) then twoStageGo deps rest seen
        else twoViolation dep :: twoStageGo deps rest (twoKey dep :: seen))
     else twoStageGo deps rest seen) := rfl

theorem twoKey_eq_of_reverse (d1 d2 : SignalDep) (h2s : d2.source = d1.target)
    (h2t : d2.target = d1.source) (hab : lowerStr d1.source ≠ lowerStr d1.target) :
    twoKey d2 = twoKey d1 := by
  unfold twoKey
  rw [h2s, h2t]
  by_cases hlt : strLt (lowerStr d1.source) (lowerStr d1.target)
  · rw [if_pos hlt, if_neg (by simp [strLt_asymm _ _ hlt])]
  · have hlt' : strLt (lowerStr d1.source) (lowerStr d1.target) = false := by
      simpa using hlt
    have hba : strLt (lowerStr d1.target) (lowerStr d1.source) = true := by
      by_cases hx : strLt (lowerStr d1.target) (lowerStr d1.source)
      · exact hx
      · have hx' : strLt (lowerStr d1.target) (lowerStr d1.source) = false := by
          simpa using hx
        exact absurd (strLt_total_eq _ _ hlt' hx') hab
    rw [if_pos hba, if_neg hlt]

theorem twoStageGo_fresh_append (F : List SignalDep) (d1 d2 : SignalDep)
    (h2s : d2.source = d1.target) (h2t : d2.target = d1.source)
    (hab : lowerStr d1.source ≠ lowerStr d1.target) :
    ∀ (rest : List SignalDep) (seen : List (Str × Str)),
      (∀ dep ∈ rest,
        lowerStr dep.source ≠ lowerStr d1.source ∧
        lowerStr dep.source ≠ lowerStr d1.target ∧
        lowerStr dep.target ≠ lowerStr d1.source ∧
        lowerStr dep.target ≠ lowerStr d1.target) →
      (∀ k ∈ seen, k.1 ≠ lowerStr d1.source ∧ k.1 ≠ lowerStr d1.target) →
      twoStageGo (F ++ [d1, d2]) (rest ++ [d1, d2]) seen =
        twoStageGo F rest seen ++ [twoViolation d1] := by
  intro rest
  induction rest with
  | nil =>
    intro seen _ hseen
    rw [List.nil_append, twoStageGo_cons, twoStageGo_nil, List.nil_append]
    have hcontain1 : edgesContain (F ++ [d1, d2])
        (lowerStr d1.target, lowerStr d1.source) = true := by
      unfold edgesContain
      rw [List.any_append]
      apply Bool.or_eq_true_iff.mpr
      right
      simp [h2s, h2t]
    have hseenchk : (seen.any (fun k => decide (k = twoKey d1))) = false := by
      rw [List.any_eq_false]
      intro k hk
      simp only [decide_eq_true_eq]
      intro hke
      have hks := hseen _ hk
      unfold twoKey at hke
      by_cases hlt : strLt (lowerStr d1.source) (lowerStr d1.target)
      · rw [if_pos hlt] at hke
        exact hks.1 (by rw [hke])
      · rw [if_neg hlt] at hke
        exact hks.2 (by rw [hke])
    rw [if_neg hab, hcontain1]
    simp only [if_true]
    rw [hseenchk]
    simp only [Bool.false_eq_true, if_false]
    rw [twoStageGo_cons, twoStageGo_nil]
    have hcontain2 : edgesContain (F ++ [d1, d2])
        (lowerStr d2.target, lowerStr d2.source) = true := by
      unfold edgesContain
      rw [List.any_append]
      apply Bool.or_eq_true_iff.mpr
      right
      simp only [List.any_cons, List.any_nil]
      apply Bool.or_eq_true_iff.mpr
      left
      simp [h2s, h2t]
    rw [if_neg (by rw [h2s, h2t]; exact fun he => hab he.symm)]
    rw [hcontain2]
    simp only [if_true]
    rw [twoKey_eq_of_reverse d1 d2 h2s h2t hab]
    have hself : ((twoKey d1 :: seen).any (fun k => decide (k = twoKey d1))) = true := by
      simp
    rw [hself]
    simp only [if_true, twoStageGo_nil]
  | cons dep rest ih =>
    intro seen hfresh hseen
    have hdep := hfresh dep (List.mem_cons_self dep rest)
    have hfresh' : ∀ d ∈ rest,
        lowerStr d.source ≠ lowerStr d1.source ∧
        lowerStr d.source ≠ lowerStr d1.target ∧
        lowerStr d.target ≠ lowerStr d1.source ∧
        lowerStr d.target ≠ lowerStr d1.target :=
      fun d hd => hfresh d (List.mem_cons_of_mem dep hd)
    rw [List.cons_append, twoStageGo_cons, twoStageGo_cons]
    by_cases hsd : lowerStr dep.source = lowerStr dep.target
    · rw [if_pos hsd, if_pos hsd]
      exact ih seen hfresh' hseen
    · rw [if_neg hsd, if_neg hsd]
      rw [edgesContain_append_fresh F d1 d2 h2s h2t
        (lowerStr dep.target, lowerStr dep.source) hdep.2.2.1 hdep.2.2.2]
      by_cases hec : edgesContain F (lowerStr dep.target, lowerStr dep.source) = true
      · rw [hec]
        simp only [if_true]
        by_cases hsk : (seen.any (fun k => decide (k = twoKey dep))) = true
        · rw [hsk]
          simp only [if_true]
          exact ih seen hfresh' hseen
        · rw [Bool.not_eq_true] at hsk
          rw [hsk]
          simp only [Bool.false_eq_true, if_false]
          have hseen' : ∀ k ∈ (twoKey dep :: seen),
              k.1 ≠ lowerStr d1.source ∧ k.1 ≠ lowerStr d1.target := by
            intro k hk
            rcases List.mem_cons.mp hk with rfl | hk'
            · unfold twoKey
              by_cases hlt : strLt (lowerStr dep.source) (lowerStr dep.target)
              · rw [if_pos hlt]
                exact ⟨hdep.1, hdep.2.1⟩
              · rw [if_neg hlt]
                exact ⟨hdep.2.2.1, hdep.2.2.2⟩
            · exact hseen k hk'
          rw [ih _ hfresh' hseen']
          rfl
      · rw [Bool.not_eq_true] at hec
        rw [hec]
        simp only [Bool.false_eq_true, if_false]
        exact ih seen hfresh' hseen

theorem direct_loop_append (I : Input) (d : SignalDep)
    (hseq : d.is_sequential = false) (hself : d.source = d.target)
    (hnst : (sequentialTargets I).any (fun t => decide (t = d.target)) = false)
    (htb : file_in_testbench I d.file = false)
    (hres : is_resolved_signal I d.target = false) :
    direct_combinational_loop { I with signal_deps := I.signal_deps ++ [d] } =
      direct_combinational_loop I ++ [directViolation d] := by
  have hst : sequentialTargets { I with signal_deps := I.signal_deps ++ [d] } =
      sequentialTargets I := by
    unfold sequentialTargets
    show ((I.signal_deps ++ [d]).filter (fun dep => dep.is_sequential)).map (·.target) = _
    rw [List.filter_append]
    have hone : [d].filter (fun dep => dep.is_sequential) = [] := by simp [hseq]
    rw [hone, List.append_nil]
  unfold direct_combinational_loop
  simp only [hst]
  show ((I.signal_deps ++ [d]).filter (fun dep =>
      !dep.is_sequential && decide (dep.source = dep.target) &&
      !(sequentialTargets I).any (fun t => decide (t = dep.target)) &&
      !file_in_testbench I dep.file &&
      !is_resolved_signal I dep.target)).map (fun dep =>
    ({ rule := str "direct_combinational_loop"
       severity := str "error"
       file := dep.file
       line := dep.line
       message := str "Direct combinational loop: signal '" ++ dep.source ++
         str "' depends on itself" } : Violation)) = _
  rw [List.filter_append]
  have hone : [d].filter (fun dep =>
      !dep.is_sequential && decide (dep.source = dep.target) &&
      !(sequentialTargets I).any (fun t => decide (t = dep.target)) &&
      !file_in_testbench I dep.file &&
      !is_resolved_signal I dep.target) = [d] := by
    simp [hseq, hself, hnst, htb, hres]
  rw [hone, List.map_append]
  rfl

theorem two_stage_append (I : Input) (d1 d2 : SignalDep)
    (h2s : d2.source = d1.target) (h2t : d2.target = d1.source)
    (hab : lowerStr d1.source ≠ lowerStr d1.target)
    (hseq1 : d1.is_sequential = false) (hseq2 : d2.is_sequential = false)
    (hresS : is_resolved_signal I d1.source = false)
    (hresT : is_resolved_signal I d1.target = false)
    (hfresh : ∀ dep ∈ I.signal_deps,
      lowerStr dep.source ≠ lowerStr d1.source ∧
      lowerStr dep.source ≠ lowerStr d1.target ∧
      lowerStr dep.target ≠ lowerStr d1.source ∧
      lowerStr dep.target ≠ lowerStr d1.target) :
    two_stage_loop { I with signal_deps := I.signal_deps ++ [d1, d2] } =
      two_stage_loop I ++ [twoViolation d1] := by
  have hF : filtered_combinational_deps { I with signal_deps := I.signal_deps ++ [d1, d2] } =
      filtered_combinational_deps I ++ [d1, d2] := by
    unfold filtered_combinational_deps
    show ((I.signal_deps ++ [d1, d2]).filter (fun dep => !dep.is_sequential)).filter
      (fun dep =>
        !is_resolved_signal I dep.source && !is_resolved_signal I dep.target) = _
    rw [List.filter_append, List.filter_append]
    have h1 : [d1, d2].filter (fun dep => !dep.is_sequential) = [d1, d2] := by
      simp [hseq1, hseq2]
    rw [h1]
    have h2 : [d1, d2].filter (fun dep =>
        !is_resolved_signal I dep.source && !is_resolved_signal I dep.target) = [d1, d2] := by
      simp [hresS, hresT, h2s, h2t]
    rw [h2]
  show twoStageGo (filtered_combinational_deps { I with signal_deps := I.signal_deps ++ [d1, d2] })
    (filtered_combinational_deps { I with signal_deps := I.signal_deps ++ [d1, d2] }) [] = _
  rw [hF]
  apply twoStageGo_fresh_append _ _ _ h2s h2t hab
  · intro dep hdep
    have hm1 := List.mem_filter.mp hdep
    have hm2 := List.mem_filter.mp hm1.1
    exact hfresh dep hm2.1
  · intro k hk
    cases hk

/-- C5: inserting one non-sequential self-edge (whose signal is not a
sequential write target, not resolved, not in a testbench file) appends
exactly one `direct_combinational_loop` finding; inserting a fresh
non-sequential, non-resolved pair of opposite edges appends exactly one
`two_stage_combinational_loop` finding, de-duplicated by the unordered
lowercased pair. -/
theorem C5_loop_insertion :
    (∀ (I : Input) (d : SignalDep),
      d.is_sequential = false → d.source = d.target →
      (sequentialTargets I).any (fun t => decide (t = d.target)) = false →
      file_in_testbench I d.file = false →
      is_resolved_signal I d.target = false →
      direct_combinational_loop { I with signal_deps := I.signal_deps ++ [d] } =
        direct_combinational_loop I ++ [directViolation d]) ∧
    (∀ (I : Input) (d1 d2 : SignalDep),
      d2.source = d1.target → d2.target = d1.source →
      lowerStr d1.source ≠ lowerStr d1.target →
      d1.is_sequential = false → d2.is_sequential = false →
      is_resolved_signal I d1.source = false →
      is_resolved_signal I d1.target = false →
      (∀ dep ∈ I.signal_deps,
        lowerStr dep.source ≠ lowerStr d1.source ∧
        lowerStr dep.source ≠ lowerStr d1.target ∧
        lowerStr dep.target ≠ lowerStr d1.source ∧
        lowerStr dep.target ≠ lowerStr d1.target) →
      two_stage_loop { I with signal_deps := I.signal_deps ++ [d1, d2] } =
        two_stage_loop I ++ [twoViolation d1]) :=
  ⟨fun I d h1 h2 h3 h4 h5 => direct_loop_append I d h1 h2 h3 h4 h5,
   fun I d1 d2 h1 h2 h3 h4 h5 h6 h7 h8 =>
     two_stage_append I d1 d2 h1 h2 h3 h4 h5 h6 h7 h8⟩

def c5SelfDep : SignalDep :=
  { source := str "a", target := str "a", file := str "f.vhd", line := 3
    is_sequential := false, in_process := [], in_arch := str "rtl" }

def c5DepAB : SignalDep :=
  { source := str "a", target := str "b", file := str "f.vhd", line := 4
    is_sequential := false, in_process := [], in_arch := str "rtl" }

def c5DepBA : SignalDep :=
  { source := str "b", target := str "a", file := str "f.vhd", line := 5
    is_sequential := false, in_process := [], in_arch := str "rtl" }

theorem C5_loop_insertion_witness :
    c5SelfDep.is_sequential = false ∧
    direct_combinational_loop
        { emptyInput with signal_deps := emptyInput.signal_deps ++ [c5SelfDep] } =
      direct_combinational_loop emptyInput ++ [directViolation c5SelfDep] ∧
    two_stage_loop
        { emptyInput with signal_deps := emptyInput.signal_deps ++ [c5DepAB, c5DepBA] } =
      two_stage_loop emptyInput ++ [twoViolation c5DepAB] :=
  ⟨by decide,
   (C5_loop_insertion).1 emptyInput c5SelfDep (by decide) (by decide) (by decide)
     (by decide) (by decide),
   (C5_loop_insertion).2 emptyInput c5DepAB c5DepBA (by decide) (by decide) (by decide)
     (by decide) (by decide) (by decide) (by decide) (by intro dep hdep; cases hdep)⟩

/-!
Case-normalization of every name-bearing field of the fact model (file
paths, line numbers, flags and configuration are not names and stay
fixed).
-/

def lowerPort (p : Port) : Port :=
  { p with name := lowerStr p.name, type := lowerStr p.type, in_entity := lowerStr p.in_entity }

def lowerEntity (e : Entity) : Entity :=
  { e with name := lowerStr e.name, ports := e.ports.map lowerPort }

def lowerArchitecture (a : Architecture) : Architecture :=
  { a with name := lowerStr a.name, entity_name := lowerStr a.entity_name }

def lowerSignal (s : Signal) : Signal :=
  { s with name := lowerStr s.name, type := lowerStr s.type, in_entity := lowerStr s.in_entity }

def lowerDependency (d : Dependency) : Dependency :=
  { d with target := lowerStr d.target }

def lowerProcess (p : Process) : Process :=
  { p with label := lowerStr p.label, clock_signal := lowerStr p.clock_signal
           reset_signal := lowerStr p.reset_signal
           assigned_signals := p.assigned_signals.map lowerStr
           read_signals := p.read_signals.map lowerStr
           in_arch := lowerStr p.in_arch }

def lowerConcurrent (ca : ConcurrentAssignment) : ConcurrentAssignment :=
  { ca with target := lowerStr ca.target, read_signals := ca.read_signals.map lowerStr
            in_arch := lowerStr ca.in_arch, generate_label := lowerStr ca.generate_label }

def lowerSignalDep (d : SignalDep) : SignalDep :=
  { d with source := lowerStr d.source, target := lowerStr d.target
           in_process := lowerStr d.in_process, in_arch := lowerStr d.in_arch }

def lowerAssociation (a : Association) : Association :=
  { a with formal := lowerStr a.formal, actual := lowerStr a.actual
           actual_base := lowerStr a.actual_base, actual_full := lowerStr a.actual_full }

def lowerInstance (i : Instance) : Instance :=
  { i with name := lowerStr i.name, target := lowerStr i.target
           port_map := i.port_map.map (fun p => (lowerStr p.1, lowerStr p.2))
           associations := i.associations.map lowerAssociation
           in_arch := lowerStr i.in_arch }

def lowerTypeDeclaration (t : TypeDeclaration) : TypeDeclaration :=
  { t with name := lowerStr t.name }

def lowerVerificationBlock (b : VerificationBlock) : VerificationBlock :=
  { b with label := lowerStr b.label, in_arch := lowerStr b.in_arch }

def lowerVerificationTag (t : VerificationTag) : VerificationTag :=
  { t with in_arch := lowerStr t.in_arch }

/-- Down-casing every name-bearing field of a fact set. -/
def lowerInputNames (I : Input) : Input :=
  { entities := I.entities.map lowerEntity
    architectures := I.architectures.map lowerArchitecture
    signals := I.signals.map lowerSignal
    ports := I.ports.map lowerPort
    dependencies := I.dependencies.map lowerDependency
    processes := I.processes.map lowerProcess
    concurrent_assignments := I.concurrent_assignments.map lowerConcurrent
    signal_deps := I.signal_deps.map lowerSignalDep
    instances := I.instances.map lowerInstance
    types := I.types.map lowerTypeDeclaration
    enum_literals := I.enum_literals.map lowerStr
    constants := I.constants.map lowerStr
    shared_variables := I.shared_variables.map lowerStr
    verification_blocks := I.verification_blocks.map lowerVerificationBlock
    lint_config := I.lint_config
    third_party_files := I.third_party_files }

/-- A violation with its message (the only spelling-carrying field)
removed. -/
def violationKey (v : Violation) : Str × Str × Str × Nat :=
  (v.rule, v.severity, v.file, v.line)

theorem is_resolved_type_lower (t : Str) :
    is_resolved_type (lowerStr t) = is_resolved_type t := by
  unfold is_resolved_type
  rw [lowerStr_idem]

theorem filterOfMap (f : α → β) (p : β → Bool) (l : List α) :
    (l.map f).filter p = (l.filter (fun x => p (f x))).map f := by
  induction l with
  | nil => rfl
  | cons x xs ih =>
    rw [List.map_cons, List.filter_cons, List.filter_cons]
    by_cases h : p (f x)
    · simp only [h, if_true, List.map_cons, ih]
    · simp only [h, Bool.false_eq_true, if_false, ih]

theorem is_resolved_signal_lower (I : Input) (n : Str) :
    is_resolved_signal (lowerInputNames I) (lowerStr n) = is_resolved_signal I n := by
  unfold is_resolved_signal
  show ((I.signals.map lowerSignal).any _ || (I.ports.map lowerPort).any _) = _
  rw [List.any_map, List.any_map]
  have hs : ((fun s : Signal => eqIgnoreCase s.name (lowerStr n) && is_resolved_type s.type) ∘
      lowerSignal) =
      (fun sig : Signal => eqIgnoreCase sig.name n && is_resolved_type sig.type) := by
    funext sig
    show (eqIgnoreCase (lowerStr sig.name) (lowerStr n) && is_resolved_type (lowerStr sig.type))
      = _
    rw [eqIgnoreCase_lower_left, eqIgnoreCase_lower_right, is_resolved_type_lower]
  have hp : ((fun p : Port => eqIgnoreCase p.name (lowerStr n) && is_resolved_type p.type) ∘
      lowerPort) =
      (fun port : Port => eqIgnoreCase port.name n && is_resolved_type port.type) := by
    funext port
    show (eqIgnoreCase (lowerStr port.name) (lowerStr n) && is_resolved_type (lowerStr port.type))
      = _
    rw [eqIgnoreCase_lower_left, eqIgnoreCase_lower_right, is_resolved_type_lower]
  rw [hs, hp]

theorem filtered_deps_lower (I : Input) :
    filtered_combinational_deps (lowerInputNames I) =
    (filtered_combinational_deps I).map lowerSignalDep := by
  unfold filtered_combinational_deps
  show ((I.signal_deps.map lowerSignalDep).filter (fun dep => !dep.is_sequential)).filter
    (fun dep => !is_resolved_signal (lowerInputNames I) dep.source &&
      !is_resolved_signal (lowerInputNames I) dep.target) = _
  rw [filterOfMap, filterOfMap]
  have hfa : (fun (x : SignalDep) => !(lowerSignalDep x).is_sequential) =
      (fun x : SignalDep => !x.is_sequential) := by
    funext x
    rfl
  rw [hfa]
  have hfb : (fun x : SignalDep =>
      !is_resolved_signal (lowerInputNames I) (lowerSignalDep x).source &&
      !is_resolved_signal (lowerInputNames I) (lowerSignalDep x).target) =
      (fun x : SignalDep =>
        !is_resolved_signal I x.source && !is_resolved_signal I x.target) := by
    funext x
    show (!is_resolved_signal (lowerInputNames I) (lowerStr x.source) &&
      !is_resolved_signal (lowerInputNames I) (lowerStr x.target)) = _
    rw [is_resolved_signal_lower, is_resolved_signal_lower]
  rw [hfb]

theorem twoKey_lower (dep : SignalDep) : twoKey (lowerSignalDep dep) = twoKey dep := by
  unfold twoKey
  show (if strLt (lowerStr (lowerStr dep.source)) (lowerStr (lowerStr dep.target)) then
    (lowerStr (lowerStr dep.source), lowerStr (lowerStr dep.target))
  else (lowerStr (lowerStr dep.target), lowerStr (lowerStr dep.source))) = _
  rw [lowerStr_idem, lowerStr_idem]

theorem edgesContain_map_lower (F : List SignalDep) (p : Str × Str) :
    edgesContain (F.map lowerSignalDep) p = edgesContain F p := by
  unfold edgesContain
  rw [List.any_map]
  have h : ((fun d : SignalDep => decide ((lowerStr d.source, lowerStr d.target) = p)) ∘
      lowerSignalDep) =
      (fun d : SignalDep => decide ((lowerStr d.source, lowerStr d.target) = p)) := by
    funext d
    show decide ((lowerStr (lowerStr d.source), lowerStr (lowerStr d.target)) = p) = _
    rw [lowerStr_idem, lowerStr_idem]
  rw [h]

theorem twoStageGo_lower (F : List SignalDep) :
    ∀ (rest : List SignalDep) (seen : List (Str × Str)),
      (twoStageGo (F.map lowerSignalDep) (rest.map lowerSignalDep) seen).map violationKey =
      (twoStageGo F rest seen).map violationKey := by
  intro rest
  induction rest with
  | nil => intro seen; rfl
  | cons dep rest ih =>
    intro seen
    rw [List.map_cons, twoStageGo_cons, twoStageGo_cons]
    have hsrc : lowerStr (lowerSignalDep dep).source = lowerStr dep.source := by
      show lowerStr (lowerStr dep.source) = _
      rw [lowerStr_idem]
    have htgt : lowerStr (lowerSignalDep dep).target = lowerStr dep.target := by
      show lowerStr (lowerStr dep.target) = _
      rw [lowerStr_idem]
    rw [hsrc, htgt, edgesContain_map_lower, twoKey_lower]
    by_cases hsd : lowerStr dep.source = lowerStr dep.target
    · rw [if_pos hsd, if_pos hsd]
      exact ih seen
    · rw [if_neg hsd, if_neg hsd]
      by_cases hec : edgesContain F (lowerStr dep.target, lowerStr dep.source) = true
      · rw [hec]
        simp only [if_true]
        by_cases hsk : (seen.any (fun k => decide (k = twoKey dep))) = true
        · rw [hsk]
          simp only [if_true]
          exact ih seen
        · rw [Bool.not_eq_true] at hsk
          rw [hsk]
          simp only [Bool.false_eq_true, if_false]
          rw [List.map_cons, List.map_cons, ih]
          rfl
      · rw [Bool.not_eq_true] at hec
        rw [hec]
        simp only [Bool.false_eq_true, if_false]
        exact ih seen

/-- C2 (amended): case-normalizing every name-bearing field leaves the
`two_stage_combinational_loop` findings unchanged up to the spelling of
names inside messages, because all of that rule's comparisons go through
the case-insensitive helpers.  The invariant is not global: the direct
self-loop rule compares `source == target` case-sensitively (see the
counterexample), so not every name-vs-name comparison is
case-insensitive. -/
theorem C2_two_stage_case_invariance (I : Input) :
    (two_stage_loop (lowerInputNames I)).map violationKey =
    (two_stage_loop I).map violationKey := by
  show (twoStageGo (filtered_combinational_deps (lowerInputNames I))
    (filtered_combinational_deps (lowerInputNames I)) []).map violationKey = _
  rw [filtered_deps_lower]
  exact twoStageGo_lower (filtered_combinational_deps I) (filtered_combinational_deps I) []

def c2Dep : SignalDep :=
  { source := str "A", target := str "a", file := str "f.vhd", line := 1
    is_sequential := false, in_process := [], in_arch := str "rtl" }

def c2Input : Input :=
  { emptyInput with
    signal_deps := [c2Dep]
    lint_config := [(str "direct_combinational_loop", str "error")] }

/-- C2 counterexample: a fact set with the single non-sequential edge
`A -> a`.  The batch engine (with the rule enabled in the configuration)
reports nothing, but after down-casing every name-bearing field the edge
becomes the self-loop `a -> a` and one `direct_combinational_loop` error
appears: the violation set changed by more than message spelling. -/
theorem C2_counterexample :
    (filter_violations c2Input (direct_combinational_loop c2Input)).length = 0 ∧
    (filter_violations (lowerInputNames c2Input)
      (direct_combinational_loop (lowerInputNames c2Input))).length = 1 := by
  constructor
  · decide
  · decide

/-!
C3 — width of sliced/indexed actuals (`indexed_width`, `port_width_mismatch`).
-/

theorem digit_ne_of (c x : Char) (hc : c.isDigit = true) (hx : x.isDigit = false) :
    c ≠ x := by
  intro he
  rw [he, hx] at hc
  cases hc

theorem digit_not_ws (c : Char) (h : c.isDigit = true) : c.isWhitespace = false := by
  cases hw : c.isWhitespace
  · rfl
  · exfalso
    have hd : ((c = ' ' ∨ c = '\t') ∨ c = '\x0d') ∨ c = '\n' := by
      simpa [Char.isWhitespace] using hw
    rcases hd with ((rfl | rfl) | rfl) | rfl <;> exact absurd h (by decide)

theorem digit_toNat_le (c : Char) (h : c.isDigit = true) :
    48 ≤ c.toNat ∧ c.toNat ≤ 57 := by
  simp only [Char.isDigit, ge_iff_le, Bool.and_eq_true, decide_eq_true_eq] at h
  exact ⟨UInt32.le_toNat_of_le (by decide) h.1, UInt32.toNat_le_of_le (by decide) h.2⟩

theorem lowerChar_digit (c : Char) (h : c.isDigit = true) : lowerChar c = c := by
  have hb := digit_toNat_le c h
  exact lowerChar_of_not c (by omega)

theorem lowerStr_eq_self (s : Str) (h : ∀ c ∈ s, lowerChar c = c) :
    lowerStr s = s := by
  induction s with
  | nil => rfl
  | cons a t ih =>
    have ht := ih (fun c hc => h c (List.mem_cons_of_mem a hc))
    simp only [lowerStr, List.map_cons] at *
    rw [h a (List.mem_cons_self a t), ht]

theorem contains_eq_false_of (l : Str) (c : Char) (h : ∀ x ∈ l, x ≠ c) :
    l.contains c = false := by
  induction l with
  | nil => rfl
  | cons a t ih =>
    have ha := h a (List.mem_cons_self a t)
    have ht := ih (fun x hx => h x (List.mem_cons_of_mem a hx))
    rw [List.contains_cons, ht]
    simp only [Bool.or_false, beq_eq_false_iff_ne, ne_eq]
    exact fun he => ha he.symm

theorem findCharIdx_append_cons (c : Char) (xs rest : Str) (hx : c ∉ xs) :
    findCharIdx c (xs ++ c :: rest) = some xs.length := by
  induction xs with
  | nil => simp [findCharIdx]
  | cons a t ih =>
    have ha : a ≠ c := fun he => hx (he ▸ List.mem_cons_self a t)
    have ht := ih (fun hm => hx (List.mem_cons_of_mem a hm))
    simp [findCharIdx, ha, ht]

theorem rfindCharIdx_concat (c : Char) (l : Str) :
    rfindCharIdx c (l ++ [c]) = some l.length := by
  simp [rfindCharIdx, List.reverse_append, findCharIdx]

theorem isPrefixOf_self_append (l r : Str) : l.isPrefixOf (l ++ r) = true := by
  induction l with
  | nil => simp [List.isPrefixOf]
  | cons a t ih => simp [List.cons_append, List.isPrefixOf_cons₂, ih]

theorem isPrefixOf_cons_ne (n0 x : Char) (ntl ys : Str) (h : x ≠ n0) :
    (n0 :: ntl).isPrefixOf (x :: ys) = false := by
  have hb : (n0 == x) = false := beq_eq_false_iff_ne.mpr (fun he => h he.symm)
  simp [List.isPrefixOf_cons₂, hb]

theorem findSubIdx_head_notin (n0 : Char) (ntl hay : Str)
    (h : ∀ x ∈ hay, x ≠ n0) :
    findSubIdx (n0 :: ntl) hay = none := by
  induction hay with
  | nil => simp [findSubIdx]
  | cons a t ih =>
    have ha := h a (List.mem_cons_self a t)
    have ht := ih (fun x hx => h x (List.mem_cons_of_mem a hx))
    simp [findSubIdx, isPrefixOf_cons_ne n0 a ntl t ha, ht]

theorem findSubIdx_boundary (n0 : Char) (ntl xs rest : Str)
    (hx : ∀ x ∈ xs, x ≠ n0) :
    findSubIdx (n0 :: ntl) (xs ++ (n0 :: ntl) ++ rest) = some xs.length := by
  induction xs with
  | nil =>
    have hp : (n0 :: ntl).isPrefixOf (n0 :: (ntl ++ rest)) = true := by
      have h0 := isPrefixOf_self_append (n0 :: ntl) rest
      simp only [List.cons_append] at h0
      exact h0
    simp [findSubIdx, hp]
  | cons a t ih =>
    have ha := hx a (List.mem_cons_self a t)
    have ht := ih (fun x h2 => hx x (List.mem_cons_of_mem a h2))
    simp only [List.cons_append, List.append_assoc] at ht ⊢
    simp [findSubIdx, isPrefixOf_cons_ne n0 a ntl _ ha, ht]

theorem trimStr_eq_self (s : Str)
    (h1 : ∀ c, s.head? = some c → c.isWhitespace = false)
    (h2 : ∀ c, s.getLast? = some c → c.isWhitespace = false) :
    trimStr s = s := by
  have hd : s.dropWhile Char.isWhitespace = s := by
    cases s with
    | nil => rfl
    | cons a t => simp [List.dropWhile_cons, h1 a rfl]
  have hrev : s.reverse.dropWhile Char.isWhitespace = s.reverse := by
    cases hr : s.reverse with
    | nil => rfl
    | cons b u =>
      have hb : s.getLast? = some b := by
        rw [← List.head?_reverse, hr]
        rfl
      simp [List.dropWhile_cons, h2 b hb]
  unfold trimStr
  rw [hd, hrev, List.reverse_reverse]

theorem parseIntL_digits (s : Str) (hne : s ≠ []) (hd : ∀ c ∈ s, c.isDigit = true) :
    parseIntL s = some (Int.ofNat (digitsVal s)) := by
  cases s with
  | nil => exact absurd rfl hne
  | cons c t =>
    have hc := hd c (List.mem_cons_self c t)
    have h1 : c ≠ '+' := digit_ne_of c '+' hc (by decide)
    have h2 : c ≠ '-' := digit_ne_of c '-' hc (by decide)
    have hall : allDigits (c :: t) = true := by
      simp only [allDigits, List.all_eq_true]
      exact hd
    simp [parseIntL, h1, h2, parseDigits, hall, List.isEmpty]

theorem iw_parts (base mid : Str) (hbase : '(' ∉ base)
    (h1 : ∀ c, mid.head? = some c → c.isWhitespace = false)
    (h2 : ∀ c, mid.getLast? = some c → c.isWhitespace = false) :
    findCharIdx '(' (base ++ ('(' :: mid) ++ [')']) = some base.length ∧
    rfindCharIdx ')' (base ++ ('(' :: mid) ++ [')']) =
      some (base.length + 1 + mid.length) ∧
    trimStr (((base ++ ('(' :: mid) ++ [')']).drop (base.length + 1)).take
      (base.length + 1 + mid.length - (base.length + 1))) = mid := by
  refine ⟨?_, ?_, ?_⟩
  · have he : base ++ ('(' :: mid) ++ [')'] = base ++ '(' :: (mid ++ [')']) := by simp
    rw [he]
    exact findCharIdx_append_cons '(' base (mid ++ [')']) hbase
  · have h0 := rfindCharIdx_concat ')' (base ++ ('(' :: mid))
    have hlen : (base ++ ('(' :: mid)).length = base.length + 1 + mid.length := by
      simp [List.length_append]
      omega
    rw [hlen] at h0
    exact h0
  · have hdrop : (base ++ ('(' :: mid) ++ [')']).drop (base.length + 1) = mid ++ [')'] := by
      have he : base ++ ('(' :: mid) ++ [')'] = (base ++ ['(']) ++ (mid ++ [')']) := by simp
      rw [he]
      exact List.drop_left' (by simp)
    have harith : base.length + 1 + mid.length - (base.length + 1) = mid.length := by omega
    rw [hdrop, harith, List.take_left]
    exact trimStr_eq_self mid h1 h2

theorem head_not_ws_of_digits (h rest : Str) (hne : h ≠ [])
    (hd : ∀ c ∈ h, c.isDigit = true) :
    ∀ c, (h ++ rest).head? = some c → c.isWhitespace = false := by
  cases h with
  | nil => exact absurd rfl hne
  | cons a t =>
    intro c hc
    simp only [List.cons_append, List.head?_cons, Option.some.injEq] at hc
    rw [← hc]
    exact digit_not_ws a (hd a (List.mem_cons_self a t))

theorem last_not_ws_of_digits (pre l : Str) (hne : l ≠ [])
    (hd : ∀ c ∈ l, c.isDigit = true) :
    ∀ c, (pre ++ l).getLast? = some c → c.isWhitespace = false := by
  rcases List.eq_nil_or_concat l with rfl | ⟨u, b, rfl⟩
  · exact absurd rfl hne
  · intro c hc
    have hb : (pre ++ u.concat b).getLast? = some b := by
      rw [List.concat_eq_append, ← List.append_assoc]
      exact List.getLast?_concat _
    rw [hb, Option.some_inj] at hc
    rw [← hc]
    exact digit_not_ws b (hd b (by simp [List.concat_eq_append]))

theorem iw_downto (base h l : Str) (w : Nat) (hbase : '(' ∉ base)
    (hh : h ≠ []) (hl : l ≠ [])
    (hdh : ∀ c ∈ h, c.isDigit = true) (hdl : ∀ c ∈ l, c.isDigit = true) :
    indexed_width (base ++ ('(' :: (h ++ str " downto " ++ l)) ++ [')']) w =
      some ((Int.ofNat (digitsVal h) - Int.ofNat (digitsVal l)).natAbs + 1) := by
  set mid := h ++ str " downto " ++ l with hmid
  have h1 : ∀ c, mid.head? = some c → c.isWhitespace = false := by
    rw [hmid, List.append_assoc]
    exact head_not_ws_of_digits h _ hh hdh
  have h2 : ∀ c, mid.getLast? = some c → c.isWhitespace = false :=
    last_not_ws_of_digits (h ++ str " downto ") l hl hdl
  obtain ⟨hstart, hstop, hins⟩ := iw_parts base mid hbase h1 h2
  have hcomma : mid.contains ',' = false := by
    apply contains_eq_false_of
    intro x hx
    rw [hmid] at hx
    simp only [List.mem_append] at hx
    rcases hx with (hx | hx) | hx
    · exact digit_ne_of x ',' (hdh x hx) (by decide)
    · exact (by decide : ∀ y ∈ str " downto ", y ≠ ',') x hx
    · exact digit_ne_of x ',' (hdl x hx) (by decide)
  have hlow : lowerStr mid = mid := by
    rw [hmid, lowerStr_append, lowerStr_append,
      lowerStr_eq_self h (fun c hc => lowerChar_digit c (hdh c hc)),
      lowerStr_eq_self l (fun c hc => lowerChar_digit c (hdl c hc))]
    rw [show lowerStr (str " downto ") = str " downto " by decide]
  have hfind : findSubIdx (str " downto ") mid = some h.length := by
    rw [hmid, show str " downto " = ' ' :: str "downto " by decide]
    exact findSubIdx_boundary ' ' (str "downto ") h l
      (fun x hx => digit_ne_of x ' ' (hdh x hx) (by decide))
  have htake : mid.take h.length = h := by
    rw [hmid, List.append_assoc]
    exact List.take_left h _
  have hdrop2 : (mid.drop h.length).drop (str " downto ").length = l := by
    rw [hmid, List.append_assoc, List.drop_left, List.drop_left]
  have hth : trimStr h = h := by
    apply trimStr_eq_self
    · have h0 := head_not_ws_of_digits h [] hh hdh
      simp only [List.append_nil] at h0
      exact h0
    · have h0 := last_not_ws_of_digits [] h hh hdh
      simp only [List.nil_append] at h0
      exact h0
  have htl : trimStr l = l := by
    apply trimStr_eq_self
    · have h0 := head_not_ws_of_digits l [] hl hdl
      simp only [List.append_nil] at h0
      exact h0
    · have h0 := last_not_ws_of_digits [] l hl hdl
      simp only [List.nil_append] at h0
      exact h0
  simp only [indexed_width, hstart, hstop]
  rw [if_neg (by omega : ¬ (base.length + 1 + mid.length ≤ base.length))]
  simp only [hins, hcomma, Bool.false_eq_true, if_false, hlow, hfind]
  rw [htake, hdrop2, hth, htl, parseIntL_digits h hh hdh, parseIntL_digits l hl hdl]

theorem iw_to (base h l : Str) (w : Nat) (hbase : '(' ∉ base)
    (hh : h ≠ []) (hl : l ≠ [])
    (hdh : ∀ c ∈ h, c.isDigit = true) (hdl : ∀ c ∈ l, c.isDigit = true)
    (hnone : findSubIdx (str " downto ") (h ++ str " to " ++ l) = none) :
    indexed_width (base ++ ('(' :: (h ++ str " to " ++ l)) ++ [')']) w =
      some ((Int.ofNat (digitsVal h) - Int.ofNat (digitsVal l)).natAbs + 1) := by
  set mid := h ++ str " to " ++ l with hmid
  have h1 : ∀ c, mid.head? = some c → c.isWhitespace = false := by
    rw [hmid, List.append_assoc]
    exact head_not_ws_of_digits h _ hh hdh
  have h2 : ∀ c, mid.getLast? = some c → c.isWhitespace = false :=
    last_not_ws_of_digits (h ++ str " to ") l hl hdl
  obtain ⟨hstart, hstop, hins⟩ := iw_parts base mid hbase h1 h2
  have hcomma : mid.contains ',' = false := by
    apply contains_eq_false_of
    intro x hx
    rw [hmid] at hx
    simp only [List.mem_append] at hx
    rcases hx with (hx | hx) | hx
    · exact digit_ne_of x ',' (hdh x hx) (by decide)
    · exact (by decide : ∀ y ∈ str " to ", y ≠ ',') x hx
    · exact digit_ne_of x ',' (hdl x hx) (by decide)
  have hlow : lowerStr mid = mid := by
    rw [hmid, lowerStr_append, lowerStr_append,
      lowerStr_eq_self h (fun c hc => lowerChar_digit c (hdh c hc)),
      lowerStr_eq_self l (fun c hc => lowerChar_digit c (hdl c hc))]
    rw [show lowerStr (str " to ") = str " to " by decide]
  have hfind : findSubIdx (str " to ") mid = some h.length := by
    rw [hmid, show str " to " = ' ' :: str "to " by decide]
    exact findSubIdx_boundary ' ' (str "to ") h l
      (fun x hx => digit_ne_of x ' ' (hdh x hx) (by decide))
  have htake : mid.take h.length = h := by
    rw [hmid, List.append_assoc]
    exact List.take_left h _
  have hdrop2 : (mid.drop h.length).drop (str " to ").length = l := by
    rw [hmid, List.append_assoc, List.drop_left, List.drop_left]
  have hth : trimStr h = h := by
    apply trimStr_eq_self
    · have h0 := head_not_ws_of_digits h [] hh hdh
      simp only [List.append_nil] at h0
      exact h0
    · have h0 := last_not_ws_of_digits [] h hh hdh
      simp only [List.nil_append] at h0
      exact h0
  have htl : trimStr l = l := by
    apply trimStr_eq_self
    · have h0 := head_not_ws_of_digits l [] hl hdl
      simp only [List.append_nil] at h0
      exact h0
    · have h0 := last_not_ws_of_digits [] l hl hdl
      simp only [List.nil_append] at h0
      exact h0
  simp only [indexed_width, hstart, hstop]
  rw [if_neg (by omega : ¬ (base.length + 1 + mid.length ≤ base.length))]
  simp only [hins, hcomma, Bool.false_eq_true, if_false, hlow, hnone, hfind]
  rw [htake, hdrop2, hth, htl, parseIntL_digits h hh hdh, parseIntL_digits l hl hdl]

theorem iw_single (base idx : Str) (w : Nat) (hbase : '(' ∉ base)
    (hne : idx ≠ []) (hd : ∀ c ∈ idx, c.isDigit = true) :
    indexed_width (base ++ ('(' :: idx) ++ [')']) w =
      some (if w = 0 then 0 else 1) := by
  have h1 : ∀ c, idx.head? = some c → c.isWhitespace = false := by
    have h0 := head_not_ws_of_digits idx [] hne hd
    simp only [List.append_nil] at h0
    exact h0
  have h2 : ∀ c, idx.getLast? = some c → c.isWhitespace = false := by
    have h0 := last_not_ws_of_digits [] idx hne hd
    simp only [List.nil_append] at h0
    exact h0
  obtain ⟨hstart, hstop, hins⟩ := iw_parts base idx hbase h1 h2
  have hcomma : idx.contains ',' = false :=
    contains_eq_false_of idx ',' (fun x hx => digit_ne_of x ',' (hd x hx) (by decide))
  have hlow : lowerStr idx = idx :=
    lowerStr_eq_self idx (fun c hc => lowerChar_digit c (hd c hc))
  have hspace : ∀ x ∈ idx, x ≠ ' ' :=
    fun x hx => digit_ne_of x ' ' (hd x hx) (by decide)
  have hnd : findSubIdx (str " downto ") idx = none := by
    rw [show str " downto " = ' ' :: str "downto " by decide]
    exact findSubIdx_head_notin ' ' (str "downto ") idx hspace
  have hnt : findSubIdx (str " to ") idx = none := by
    rw [show str " to " = ' ' :: str "to " by decide]
    exact findSubIdx_head_notin ' ' (str "to ") idx hspace
  simp only [indexed_width, hstart, hstop]
  rw [if_neg (by omega : ¬ (base.length + 1 + idx.length ≤ base.length))]
  simp only [hins, hcomma, Bool.false_eq_true, if_false, hlow, hnd, hnt]
  by_cases hw : w = 0
  · simp [hw]
  · simp [hw]

/-- The `port_width_mismatch_ignores_sliced_actual` scenario: port `shamt_i`
of width 5 bound to `opb(4 downto 0)` where signal `opb` has width 32. -/
def c3ShamtInput : Input :=
  { emptyInput with
    entities := [{ name := str "child", file := [], line := 0,
                   ports := [{ name := str "shamt_i", direction := str "in",
                               type := [], dflt := [], line := 0,
                               in_entity := [], width := 5 }] }]
    instances := [{ name := str "u1", target := str "work.child",
                    port_map := [(str "shamt_i", str "opb")],
                    associations := [{ kind := str "port", formal := str "shamt_i",
                                       actual := str "opb(4 downto 0)",
                                       is_positional := false, actual_base := [],
                                       actual_full := [], position_index := 0 }],
                    file := str "a.vhd", line := 1, in_arch := [] }]
    signals := [{ name := str "opb", type := [], file := [], line := 0,
                  in_entity := [], width := 32 }] }

/-- The `port_width_mismatch_skips_unknown_index_width` scenario: port `res_o`
of width 32 bound to `cp_result(0)` where `cp_result` has unknown width. -/
def c3UnknownInput : Input :=
  { emptyInput with
    entities := [{ name := str "child", file := [], line := 0,
                   ports := [{ name := str "res_o", direction := str "out",
                               type := [], dflt := [], line := 0,
                               in_entity := [], width := 32 }] }]
    instances := [{ name := str "u1", target := str "work.child",
                    port_map := [],
                    associations := [{ kind := str "port", formal := str "res_o",
                                       actual := str "cp_result(0)",
                                       is_positional := false, actual_base := [],
                                       actual_full := [], position_index := 0 }],
                    file := str "a.vhd", line := 1, in_arch := [] }]
    signals := [{ name := str "cp_result", type := [], file := [], line := 0,
                  in_entity := [], width := 0 }] }

/-- C3: when the actual bound to a known-width port contains parentheses, the
width used by `port_width_mismatch` is |hi − lo| + 1 for a `hi downto lo` or
`lo to hi` range, 1 for a single-index access on a base of known non-zero
width, and 0 (which makes the rule skip the binding) for a single-index
access on a base of unknown width; consequently binding port `shamt_i` of
width 5 to `opb(4 downto 0)` with `opb` of width 32 emits nothing, and
binding `res_o` to `cp_result(0)` with `cp_result` of unknown width emits
nothing. -/
theorem C3_port_width_slicing :
    (∀ (base h l : Str) (w : Nat), '(' ∉ base → h ≠ [] → l ≠ [] →
      (∀ c ∈ h, c.isDigit = true) → (∀ c ∈ l, c.isDigit = true) →
      indexed_width (base ++ ('(' :: (h ++ str " downto " ++ l)) ++ [')']) w =
        some ((Int.ofNat (digitsVal h) - Int.ofNat (digitsVal l)).natAbs + 1)) ∧
    (∀ (base h l : Str) (w : Nat), '(' ∉ base → h ≠ [] → l ≠ [] →
      (∀ c ∈ h, c.isDigit = true) → (∀ c ∈ l, c.isDigit = true) →
      findSubIdx (str " downto ") (h ++ str " to " ++ l) = none →
      indexed_width (base ++ ('(' :: (h ++ str " to " ++ l)) ++ [')']) w =
        some ((Int.ofNat (digitsVal h) - Int.ofNat (digitsVal l)).natAbs + 1)) ∧
    (∀ (base idx : Str) (w : Nat), '(' ∉ base → idx ≠ [] →
      (∀ c ∈ idx, c.isDigit = true) →
      indexed_width (base ++ ('(' :: idx) ++ [')']) w =
        some (if w = 0 then 0 else 1)) ∧
    port_width_mismatch c3ShamtInput = [] ∧
    port_width_mismatch c3UnknownInput = [] :=
  ⟨iw_downto, iw_to, iw_single, by decide, by decide⟩

theorem C3_port_width_slicing_witness :
    indexed_width (str "opb(4 downto 0)") 32 = some 5 ∧
    indexed_width (str "sig(2 to 6)") 32 = some 5 ∧
    indexed_width (str "cp_result(0)") 32 = some 1 ∧
    indexed_width (str "cp_result(0)") 0 = some 0 := by
  refine ⟨?_, ?_, ?_, ?_⟩
  · have h := C3_port_width_slicing.1 (str "opb") (str "4") (str "0") 32
      (by decide) (by decide) (by decide) (by decide) (by decide)
    rw [show str "opb(4 downto 0)" =
        str "opb" ++ ('(' :: (str "4" ++ str " downto " ++ str "0")) ++ [')'] by decide]
    rw [h]
    decide
  · have h := C3_port_width_slicing.2.1 (str "sig") (str "2") (str "6") 32
      (by decide) (by decide) (by decide) (by decide) (by decide) (by decide)
    rw [show str "sig(2 to 6)" =
        str "sig" ++ ('(' :: (str "2" ++ str " to " ++ str "6")) ++ [')'] by decide]
    rw [h]
    decide
  · have h := C3_port_width_slicing.2.2.1 (str "cp_result") (str "0") 32
      (by decide) (by decide) (by decide)
    rw [show str "cp_result(0)" =
        str "cp_result" ++ ('(' :: str "0") ++ [')'] by decide]
    rw [h]
    decide
  · have h := C3_port_width_slicing.2.2.1 (str "cp_result") (str "0") 0
      (by decide) (by decide) (by decide)
    rw [show str "cp_result(0)" =
        str "cp_result" ++ ('(' :: str "0") ++ [')'] by decide]
    rw [h]
    decide

/-!
C1 — refinement: the daemon dataflow versus the four core batch rules.
`tablesToInput` is the refinement mapping from the daemon's fact tables
to the batch engine's input (spec-side definition for the equivalence
claim): ports are grouped under their entity by exact name, and a
dependency is `resolved` exactly when its target appears in `symbols`.
-/

def portOfRow (entity : Str) (p : PortRow) : Port :=
  { name := p.name, direction := [], type := [], dflt := [], line := 0,
    in_entity := entity, width := 0 }

def entityOfRow (T : Tables) (e : EntityRow) : Entity :=
  { name := e.name, file := e.file, line := e.line,
    ports := (T.ports.filter (fun p => decide (p.entity = e.name))).map
      (portOfRow e.name) }

def archOfRow (a : ArchitectureRow) : Architecture :=
  { name := a.name, entity_name := a.entity_name, file := a.file, line := a.line }

def depOfRow (T : Tables) (d : DependencyRow) : Dependency :=
  { source := d.file, target := d.target, kind := d.kind, line := d.line,
    resolved := T.symbols.any (fun s => decide (s = d.target)) }

def tablesToInput (T : Tables) : Input :=
  { emptyInput with
    entities := T.entities.map (entityOfRow T)
    architectures := T.architectures.map archOfRow
    dependencies := T.dependencies.map (depOfRow T) }

theorem decide_one_sub_pos (n : Nat) :
    decide ((1 : Int) - n > 0) = decide (n = 0) := by
  apply decide_eq_decide.mpr
  omega

theorem decide_zero_sub_pos (n : Nat) :
    decide ((0 : Int) - n > 0) = false := by
  apply decide_eq_false
  omega

theorem eqIgnoreCase_of_lower (x y : Str) (hx : lowerStr x = x) (hy : lowerStr y = y) :
    eqIgnoreCase x y = decide (x = y) := by
  simp [eqIgnoreCase, hx, hy]

theorem any_congr_mem (l : List α) (p q : α → Bool) (h : ∀ a ∈ l, p a = q a) :
    l.any p = l.any q := by
  induction l with
  | nil => rfl
  | cons a t ih =>
    simp only [List.any_cons]
    rw [h a (List.mem_cons_self a t), ih (fun x hx => h x (List.mem_cons_of_mem a hx))]

theorem bang_any_eq (l : List α) (p : α → Bool) :
    (!l.any p) = decide ((l.filter p).length = 0) := by
  cases ha : l.any p
  · have h0 : l.filter p = [] := List.filter_eq_nil_iff.mpr (by simpa using ha)
    simp [h0]
  · have h0 : ∃ x ∈ l, p x = true := by simpa using ha
    obtain ⟨x, hx, hpx⟩ := h0
    have hm : x ∈ l.filter p := List.mem_filter.mpr ⟨hx, hpx⟩
    have hne : l.filter p ≠ [] := fun hh => by simp [hh] at hm
    simp [List.length_eq_zero, hne]

theorem daemon_ports_component (T : Tables)
    (htb : ∀ e ∈ T.entities, containsSub (lowerStr e.name) (str "bfm") = false ∧
      containsSub (lowerStr e.name) (str "verification") = false) :
    daemonEntitiesWithoutPorts T = missing_ports (tablesToInput T) := by
  unfold daemonEntitiesWithoutPorts missing_ports
  rw [show (tablesToInput T).entities = T.entities.map (entityOfRow T) from rfl]
  rw [filterOfMap, List.map_map]
  have hfc : T.entities.filter
      (fun x => (entityOfRow T x).ports.isEmpty && !is_testbench_name (entityOfRow T x).name) =
      T.entities.filter (fun e =>
        decide ((1 : Int) - portsCountFor T e.name > 0) && !daemon_is_testbench_name e.name) := by
    apply List.filter_congr
    intro e he
    obtain ⟨hb, hv⟩ := htb e he
    have h1 : (entityOfRow T e).ports.isEmpty =
        decide ((1 : Int) - portsCountFor T e.name > 0) := by
      rw [decide_one_sub_pos]
      show ((T.ports.filter (fun p => decide (p.entity = e.name))).map
        (portOfRow e.name)).isEmpty = _
      cases hc : T.ports.filter (fun p => decide (p.entity = e.name)) with
      | nil => simp [portsCountFor, hc]
      | cons p ps => simp [portsCountFor, hc]
    have h2 : is_testbench_name (entityOfRow T e).name = daemon_is_testbench_name e.name := by
      show is_testbench_name e.name = _
      simp [is_testbench_name, daemon_is_testbench_name, hb, hv]
    rw [h1, h2]
  rw [hfc]
  exact List.map_congr_left (fun e he => rfl)

theorem any_map_mem (l : List α) (f : α → β) (p : β → Bool) (q : α → Bool)
    (h : ∀ a ∈ l, p (f a) = q a) : (l.map f).any p = l.any q := by
  induction l with
  | nil => rfl
  | cons a t ih =>
    simp only [List.map_cons, List.any_cons]
    rw [h a (List.mem_cons_self a t), ih (fun x hx => h x (List.mem_cons_of_mem a hx))]

theorem daemon_orphan_component (T : Tables)
    (hlow : ∀ e ∈ T.entities, lowerStr e.name = e.name)
    (hlowa : ∀ a ∈ T.architectures, lowerStr a.entity_name = a.entity_name) :
    daemonOrphanArch T = orphan_architecture (tablesToInput T) := by
  unfold daemonOrphanArch orphan_architecture
  rw [show (tablesToInput T).architectures = T.architectures.map archOfRow from rfl]
  rw [filterOfMap, List.map_map]
  have hfc : T.architectures.filter
      (fun x => !entity_exists (tablesToInput T) (archOfRow x).entity_name) =
      T.architectures.filter (fun a =>
        decide ((1 : Int) - entityCountByName T a.entity_name > 0)) := by
    apply List.filter_congr
    intro a ha
    show (!entity_exists (tablesToInput T) a.entity_name) = _
    rw [decide_one_sub_pos]
    unfold entity_exists
    rw [show (tablesToInput T).entities = T.entities.map (entityOfRow T) from rfl]
    have hany : (T.entities.map (entityOfRow T)).any
        (fun e => eqIgnoreCase e.name a.entity_name) =
        T.entities.any (fun e => decide (e.name = a.entity_name)) := by
      apply any_map_mem
      intro e he
      show eqIgnoreCase e.name a.entity_name = _
      exact eqIgnoreCase_of_lower e.name a.entity_name (hlow e he) (hlowa a ha)
    rw [hany, bang_any_eq]
    rfl
  rw [hfc]
  exact List.map_congr_left (fun a ha => rfl)

theorem daemon_without_arch_component (T : Tables)
    (hlow : ∀ e ∈ T.entities, lowerStr e.name = e.name)
    (hlowa : ∀ a ∈ T.architectures, lowerStr a.entity_name = a.entity_name) :
    daemonEntitiesWithoutArch T = entity_without_arch (tablesToInput T) := by
  unfold daemonEntitiesWithoutArch entity_without_arch
  rw [show (tablesToInput T).entities = T.entities.map (entityOfRow T) from rfl]
  rw [filterOfMap, List.map_map]
  have hfc : T.entities.filter
      (fun x => !has_architecture (tablesToInput T) (entityOfRow T x).name) =
      T.entities.filter (fun e =>
        decide ((1 : Int) - archCountByEntity T e.name > 0)) := by
    apply List.filter_congr
    intro e he
    show (!has_architecture (tablesToInput T) e.name) = _
    rw [decide_one_sub_pos]
    unfold has_architecture
    rw [show (tablesToInput T).architectures = T.architectures.map archOfRow from rfl]
    have hany : (T.architectures.map archOfRow).any
        (fun arch => eqIgnoreCase arch.entity_name e.name) =
        T.architectures.any (fun a => decide (a.entity_name = e.name)) := by
      apply any_map_mem
      intro a ha
      show eqIgnoreCase a.entity_name e.name = _
      exact eqIgnoreCase_of_lower a.entity_name e.name (hlowa a ha) (hlow e he)
    rw [hany, bang_any_eq]
    rfl
  rw [hfc]
  exact List.map_congr_left (fun e he => rfl)

theorem daemon_unresolved_component (T : Tables) :
    daemonUnresolved T = unresolved_dependency (tablesToInput T) := by
  unfold daemonUnresolved unresolved_dependency
  rw [show (tablesToInput T).dependencies = T.dependencies.map (depOfRow T) from rfl]
  rw [filterOfMap, List.map_map]
  have hfc : T.dependencies.filter
      (fun x => !(depOfRow T x).resolved && decide ((depOfRow T x).kind = str "instantiation")) =
      T.dependencies.filter (fun d =>
        decide ((if d.kind = str "instantiation" then (1 : Int) else 0) -
          symbolCount T d.target > 0)) := by
    apply List.filter_congr
    intro d hd
    show (!(T.symbols.any (fun s => decide (s = d.target))) &&
        decide (d.kind = str "instantiation")) = _
    by_cases hk : d.kind = str "instantiation"
    · rw [if_pos hk, decide_one_sub_pos, bang_any_eq]
      simp [hk, symbolCount]
    · rw [if_neg hk, decide_zero_sub_pos]
      simp [hk]
  rw [hfc]
  exact List.map_congr_left (fun d hd => rfl)

/-- A fact set on which the daemon and the batch core rules agree. -/
def c1Tables : Tables :=
  { entities := [{ name := str "alpha", file := str "a.vhd", line := 1 }]
    architectures := [{ name := str "rtl", entity_name := str "alpha",
                        file := str "a.vhd", line := 2 }]
    ports := [{ entity := str "alpha", name := str "clk" }]
    dependencies := [{ file := str "a.vhd", target := str "beta",
                       kind := str "instantiation", line := 3 }]
    symbols := [] }

/-- An entity whose name contains `bfm`: the daemon emits an
`entity_has_ports` violation for it but the batch engine does not. -/
def c1BadTables : Tables :=
  { entities := [{ name := str "x_bfm", file := str "a.vhd", line := 1 }]
    architectures := [], ports := [], dependencies := [], symbols := [] }

/-- C1 (amended): on net fact tables whose rows are duplicate-free, whose
entity and referenced-entity names are already lower-case, and whose
entity names contain neither `bfm` nor `verification`, the daemon's
positive-weight violations are the same multiset as the four core batch
rules run on the refinement image `tablesToInput T`.  (The daemon joins
names case-sensitively and its testbench filter lacks the `bfm` and
`verification` markers, so the hypotheses are necessary.) -/
theorem C1_incremental_equivalence (T : Tables)
    (_hne : T.entities.Nodup) (_hna : T.architectures.Nodup) (_hnd : T.dependencies.Nodup)
    (hlow : ∀ e ∈ T.entities, lowerStr e.name = e.name)
    (hlowa : ∀ a ∈ T.architectures, lowerStr a.entity_name = a.entity_name)
    (htb : ∀ e ∈ T.entities, containsSub (lowerStr e.name) (str "bfm") = false ∧
      containsSub (lowerStr e.name) (str "verification") = false) :
    (daemonViolations T).Perm (batchCoreFour (tablesToInput T)) := by
  unfold daemonViolations batchCoreFour
  rw [← daemon_ports_component T htb, ← daemon_orphan_component T hlow hlowa,
    ← daemon_without_arch_component T hlow hlowa, ← daemon_unresolved_component T]
  rw [List.append_assoc (daemonEntitiesWithoutPorts T ++ daemonOrphanArch T),
    List.append_assoc (daemonEntitiesWithoutPorts T ++ daemonOrphanArch T)]
  exact List.Perm.append_left _ List.perm_append_comm

theorem C1_incremental_equivalence_witness :
    (daemonViolations c1Tables).Perm (batchCoreFour (tablesToInput c1Tables)) :=
  C1_incremental_equivalence c1Tables (by decide) (by decide) (by decide)
    (by decide) (by decide) (by decide)

theorem C1_counterexample :
    ¬ (daemonViolations c1BadTables).Perm (batchCoreFour (tablesToInput c1BadTables)) := by
  intro hp
  have hlen := hp.length_eq
  have hd : (daemonViolations c1BadTables).length = 2 := by decide
  have hb : (batchCoreFour (tablesToInput c1BadTables)).length = 1 := by decide
  rw [hd, hb] at hlen
  cases hlen

/-!
C7 — the missing-check planner (`missing_check_violations`,
`missing_check_tasks`, `anchor_for_arch`).
-/

def missFilter (tag_ids ids : List Str) : List Str :=
  ids.filter (fun check_id => !(tag_ids.any (fun t => decide (t = lowerStr check_id))))

def keyOf (scope_key id : Str) : Str := scope_key ++ str "::" ++ lowerStr id

def scopeKeyOf (c : Construct) : Str := str "arch:" ++ lowerStr c.in_arch

def pairKey (p : Construct × Str) : Str := keyOf (scopeKeyOf p.1) p.2

/-- One (construct, missing id) pair per required check without a valid tag. -/
def mcvPairs (tagsByScope : Str → List VerificationTag) (registry : List CheckEntry)
    (constructs : List Construct) : List (Construct × Str) :=
  constructs.flatMap (fun c =>
    (missingIdsFor tagsByScope registry c).map (fun id => (c, id)))

def emitPair (input : Input) (registry : List CheckEntry) (p : Construct × Str) :
    Violation :=
  { rule := str "missing_verification_check"
    severity := (missing_check_details input p.1 (scopeKeyOf p.1) p.2 registry).1
    file := p.1.file
    line := p.1.line
    message := (missing_check_details input p.1 (scopeKeyOf p.1) p.2 registry).2 }

def mkTask (input : Input) (tagsByScope : Str → List VerificationTag)
    (registry : List CheckEntry) (c : Construct) : MissingCheckTask :=
  { file := c.file
    scope := scopeKeyOf c
    anchor := anchor_for_arch input c.in_arch
    missing_ids := missingIdsFor tagsByScope registry c
    bindings := c.bindings
    notes := notes_for_missing_checks registry (missingIdsFor tagsByScope registry c) }

theorem missingIdsFor_eq (tagsByScope : Str → List VerificationTag)
    (registry : List CheckEntry) (c : Construct) :
    missingIdsFor tagsByScope registry c =
      missFilter (tagIdsForScope tagsByScope registry (scopeKeyOf c))
        (required_checks_for_construct c.kind) := rfl

theorem mcvIds_fresh (input : Input) (reg : List CheckEntry) (c : Construct)
    (scope_key : Str) (tag_ids : List Str) (ids : List Str) (emitted : List Str)
    (hfresh : ∀ id ∈ missFilter tag_ids ids,
      emitted.any (fun k => decide (k = keyOf scope_key id)) = false)
    (hnodup : ((missFilter tag_ids ids).map (keyOf scope_key)).Nodup) :
    mcvIds input reg c scope_key tag_ids ids emitted =
      ((missFilter tag_ids ids).map (fun id =>
        { rule := str "missing_verification_check"
          severity := (missing_check_details input c scope_key id reg).1
          file := c.file
          line := c.line
          message := (missing_check_details input c scope_key id reg).2 }),
       ((missFilter tag_ids ids).map (keyOf scope_key)).reverse ++ emitted) := by
  induction ids generalizing emitted with
  | nil => simp [mcvIds, missFilter]
  | cons id rest ih =>
    by_cases hm : (tag_ids.any (fun t => decide (t = lowerStr id))) = true
    · have hf : missFilter tag_ids (id :: rest) = missFilter tag_ids rest := by
        simp [missFilter, List.filter_cons, hm]
      rw [hf] at hfresh hnodup ⊢
      simp only [mcvIds, hm, if_true]
      exact ih emitted hfresh hnodup
    · have hm0 : (tag_ids.any (fun t => decide (t = lowerStr id))) = false :=
        Bool.eq_false_iff.mpr hm
      have hf : missFilter tag_ids (id :: rest) = id :: missFilter tag_ids rest := by
        simp [missFilter, List.filter_cons, hm0]
      rw [hf] at hfresh hnodup ⊢
      have hhead := hfresh id (List.mem_cons_self id (missFilter tag_ids rest))
      simp only [keyOf] at hhead
      simp only [List.map_cons, List.nodup_cons] at hnodup
      have hfresh2 : ∀ i ∈ missFilter tag_ids rest,
          ((scope_key ++ str "::" ++ lowerStr id) :: emitted).any
            (fun k => decide (k = keyOf scope_key i)) = false := by
        intro i hi
        simp only [List.any_cons, Bool.or_eq_false_iff]
        constructor
        · have : keyOf scope_key i ≠ keyOf scope_key id := by
            intro he
            exact hnodup.1 (he ▸ List.mem_map_of_mem (keyOf scope_key) hi)
          simp only [keyOf, List.append_assoc] at this ⊢
          simp only [decide_eq_false_iff_not]
          exact fun he => this he.symm
        · exact hfresh i (List.mem_cons_of_mem id hi)
      simp only [mcvIds, hm0, Bool.false_eq_true, if_false, hhead]
      rw [ih ((scope_key ++ str "::" ++ lowerStr id) :: emitted) hfresh2 hnodup.2]
      simp [keyOf, List.reverse_cons, List.append_assoc]

theorem mcvGo_cons (input : Input) (tbs : Str → List VerificationTag)
    (reg : List CheckEntry) (c : Construct) (rest : List Construct)
    (emitted : List Str) :
    mcvGo input tbs reg (c :: rest) emitted =
      (mcvIds input reg c (str "arch:" ++ lowerStr c.in_arch)
        (tagIdsForScope tbs reg (str "arch:" ++ lowerStr c.in_arch))
        (required_checks_for_construct c.kind) emitted).1 ++
      mcvGo input tbs reg rest
        (mcvIds input reg c (str "arch:" ++ lowerStr c.in_arch)
          (tagIdsForScope tbs reg (str "arch:" ++ lowerStr c.in_arch))
          (required_checks_for_construct c.kind) emitted).2 := rfl

theorem mcvGo_fresh (input : Input) (tbs : Str → List VerificationTag)
    (reg : List CheckEntry) (cs : List Construct) (emitted : List Str)
    (hfresh : ∀ p ∈ mcvPairs tbs reg cs,
      emitted.any (fun k => decide (k = pairKey p)) = false)
    (hnodup : ((mcvPairs tbs reg cs).map pairKey).Nodup) :
    mcvGo input tbs reg cs emitted =
      cs.flatMap (fun c =>
        (missingIdsFor tbs reg c).map (fun id => emitPair input reg (c, id))) := by
  induction cs generalizing emitted with
  | nil => simp [mcvGo]
  | cons c rest ih =>
    have hseg : mcvPairs tbs reg (c :: rest) =
        (missingIdsFor tbs reg c).map (fun id => (c, id)) ++ mcvPairs tbs reg rest := by
      simp [mcvPairs]
    rw [hseg] at hfresh hnodup
    rw [List.map_append, List.nodup_append] at hnodup
    obtain ⟨hn1, hn2, hdisj⟩ := hnodup
    have hkeys1 : ((missingIdsFor tbs reg c).map (fun id => (c, id))).map pairKey =
        (missingIdsFor tbs reg c).map
          (keyOf (str "arch:" ++ lowerStr c.in_arch)) := by
      rw [List.map_map]
      rfl
    have hfr1 : ∀ id ∈ missFilter
        (tagIdsForScope tbs reg (str "arch:" ++ lowerStr c.in_arch))
        (required_checks_for_construct c.kind),
        emitted.any (fun k =>
          decide (k = keyOf (str "arch:" ++ lowerStr c.in_arch) id)) = false := by
      intro id hid
      have hmem : (c, id) ∈ (missingIdsFor tbs reg c).map (fun id => (c, id)) :=
        List.mem_map_of_mem _ hid
      exact hfresh (c, id) (List.mem_append_left _ hmem)
    have hnd1 : ((missFilter
        (tagIdsForScope tbs reg (str "arch:" ++ lowerStr c.in_arch))
        (required_checks_for_construct c.kind)).map
          (keyOf (str "arch:" ++ lowerStr c.in_arch))).Nodup := by
      rw [hkeys1] at hn1
      exact hn1
    have hinner := mcvIds_fresh input reg c (str "arch:" ++ lowerStr c.in_arch)
      (tagIdsForScope tbs reg (str "arch:" ++ lowerStr c.in_arch))
      (required_checks_for_construct c.kind) emitted hfr1 hnd1
    rw [mcvGo_cons, hinner]
    have hfr2 : ∀ p ∈ mcvPairs tbs reg rest,
        (((missFilter (tagIdsForScope tbs reg (str "arch:" ++ lowerStr c.in_arch))
            (required_checks_for_construct c.kind)).map
            (keyOf (str "arch:" ++ lowerStr c.in_arch))).reverse ++ emitted).any
          (fun k => decide (k = pairKey p)) = false := by
      intro p hp
      simp only [List.any_append, Bool.or_eq_false_iff]
      constructor
      · rw [List.any_eq_false]
        intro k hk
        rw [List.mem_reverse] at hk
        have hk2 : k ∈ ((missingIdsFor tbs reg c).map (fun id => (c, id))).map pairKey := by
          rw [hkeys1]
          exact hk
        have hnotin : pairKey p ∉ ((missingIdsFor tbs reg c).map
            (fun id => (c, id))).map pairKey := by
          intro hin
          exact hdisj hin (List.mem_map_of_mem pairKey hp)
        simp only [decide_eq_true_eq]
        intro he
        exact hnotin (he ▸ hk2)
      · exact hfresh p (List.mem_append_right _ hp)
    rw [ih _ hfr2 hn2]
    rfl

theorem mctGo_cons (input : Input) (tbs : Str → List VerificationTag)
    (reg : List CheckEntry) (c : Construct) (rest : List Construct) (seen : List Str) :
    mctGo input tbs reg (c :: rest) seen =
      if (missingIdsFor tbs reg c).isEmpty then mctGo input tbs reg rest seen
      else if seen.any (fun k => decide (k = taskKey c)) then mctGo input tbs reg rest seen
      else mkTask input tbs reg c :: mctGo input tbs reg rest (taskKey c :: seen) := rfl

theorem mctGo_fresh (input : Input) (tbs : Str → List VerificationTag)
    (reg : List CheckEntry) (cs : List Construct) (seen : List Str)
    (hfresh : ∀ c ∈ cs.filter (fun x => !(missingIdsFor tbs reg x).isEmpty),
      seen.any (fun k => decide (k = taskKey c)) = false)
    (hnodup : ((cs.filter (fun x => !(missingIdsFor tbs reg x).isEmpty)).map
      taskKey).Nodup) :
    mctGo input tbs reg cs seen =
      (cs.filter (fun x => !(missingIdsFor tbs reg x).isEmpty)).map
        (mkTask input tbs reg) := by
  induction cs generalizing seen with
  | nil => simp [mctGo]
  | cons c rest ih =>
    rw [mctGo_cons]
    by_cases hmi : (missingIdsFor tbs reg c).isEmpty = true
    · rw [if_pos hmi]
      have hf : (c :: rest).filter (fun x => !(missingIdsFor tbs reg x).isEmpty) =
          rest.filter (fun x => !(missingIdsFor tbs reg x).isEmpty) := by
        simp [List.filter_cons, hmi]
      rw [hf] at hfresh hnodup ⊢
      exact ih seen hfresh hnodup
    · have hmi0 : (missingIdsFor tbs reg c).isEmpty = false := Bool.eq_false_iff.mpr hmi
      rw [if_neg hmi]
      have hf : (c :: rest).filter (fun x => !(missingIdsFor tbs reg x).isEmpty) =
          c :: rest.filter (fun x => !(missingIdsFor tbs reg x).isEmpty) := by
        simp [List.filter_cons, hmi0]
      rw [hf] at hfresh hnodup ⊢
      have hhead := hfresh c (List.mem_cons_self c _)
      rw [if_neg (by simp [hhead])]
      simp only [List.map_cons, List.nodup_cons] at hnodup
      have hfr2 : ∀ x ∈ rest.filter (fun x => !(missingIdsFor tbs reg x).isEmpty),
          (taskKey c :: seen).any (fun k => decide (k = taskKey x)) = false := by
        intro x hx
        simp only [List.any_cons, Bool.or_eq_false_iff]
        refine ⟨?_, hfresh x (List.mem_cons_of_mem c hx)⟩
        simp only [decide_eq_false_iff_not]
        intro he
        exact hnodup.1 (by rw [he]; exact List.mem_map_of_mem taskKey hx)
      rw [ih (taskKey c :: seen) hfr2 hnodup.2]
      rfl

def c7Fsm1 : Construct :=
  { kind := ConstructKind.fsm, in_arch := str "a", file := str "f.vhd",
    line := 1, bindings := [] }

def c7Fsm2 : Construct :=
  { kind := ConstructKind.fsm, in_arch := str "a", file := str "f.vhd",
    line := 2, bindings := [] }

def c7NoTags : Str → List VerificationTag := fun _ => []

/-- C7 (amended): the planner emits one `missing_verification_check`
violation per (construct, missing required id) pair and one task per
construct with missing ids — exactly, provided the dedup keys
(`scope::check` for violations, `scope:kind:bindings` for tasks) are
pairwise distinct across the pairs; each task carries the file, scope,
anchor, missing ids, bindings and notes, the FSM kind requires
`fsm.legal_state`, `fsm.reset_known` and `cover.fsm.transition_taken`,
and the anchor is the first verification block declared in the
architecture when one exists, else the architecture's own line with
`exists = false`.  When keys collide (two constructs of the same kind in
one architecture) later occurrences are silently dropped. -/
theorem C7_missing_check_planner (input : Input) (constructs : List Construct)
    (tagsByScope : Str → List VerificationTag) (registry : List CheckEntry)
    (hv : ((mcvPairs tagsByScope registry constructs).map pairKey).Nodup)
    (ht : ((constructs.filter (fun x =>
      !(missingIdsFor tagsByScope registry x).isEmpty)).map taskKey).Nodup) :
    missing_check_violations input constructs tagsByScope registry =
      constructs.flatMap (fun c => (missingIdsFor tagsByScope registry c).map
        (fun id => emitPair input registry (c, id))) ∧
    missing_check_tasks input constructs tagsByScope registry =
      (constructs.filter (fun x =>
        !(missingIdsFor tagsByScope registry x).isEmpty)).map
        (mkTask input tagsByScope registry) ∧
    required_checks_for_construct ConstructKind.fsm =
      [str "fsm.legal_state", str "fsm.reset_known", str "cover.fsm.transition_taken"] ∧
    (∀ (arch : Str) (block : VerificationBlock),
      input.verification_blocks.find? (fun b => eqIgnoreCase b.in_arch arch) = some block →
      anchor_for_arch input arch =
        { label := block.label, line_start := block.line_start,
          line_end := block.line_end, exists_flag := true }) ∧
    (∀ (arch : Str) (a : Architecture),
      input.verification_blocks.find? (fun b => eqIgnoreCase b.in_arch arch) = none →
      input.architectures.find? (fun x => eqIgnoreCase x.name arch) = some a →
      anchor_for_arch input arch =
        { label := str "architecture", line_start := a.line, line_end := a.line,
          exists_flag := false }) := by
  refine ⟨?_, ?_, rfl, ?_, ?_⟩
  · unfold missing_check_violations
    exact mcvGo_fresh input tagsByScope registry constructs [] (fun p hp => rfl) hv
  · unfold missing_check_tasks
    exact mctGo_fresh input tagsByScope registry constructs [] (fun c hc => rfl) ht
  · intro arch block hb
    simp [anchor_for_arch, hb]
  · intro arch a hb ha
    simp [anchor_for_arch, hb, ha]

theorem C7_counterexample :
    (missing_check_violations emptyInput [c7Fsm1, c7Fsm2] c7NoTags []).length = 3 ∧
    (missing_check_violations emptyInput [c7Fsm1, c7Fsm2] c7NoTags []).countP
      (fun v => decide (v.line = 2)) = 0 ∧
    (missing_check_tasks emptyInput [c7Fsm1, c7Fsm2] c7NoTags []).length = 1 := by
  decide

theorem C7_missing_check_planner_witness :
    missing_check_violations emptyInput [c7Fsm1] c7NoTags [] =
      [c7Fsm1].flatMap (fun c => (missingIdsFor c7NoTags [] c).map
        (fun id => emitPair emptyInput [] (c, id))) ∧
    missing_check_tasks emptyInput [c7Fsm1] c7NoTags [] =
      ([c7Fsm1].filter (fun x => !(missingIdsFor c7NoTags [] x).isEmpty)).map
        (mkTask emptyInput c7NoTags []) :=
  ⟨(C7_missing_check_planner emptyInput [c7Fsm1] c7NoTags [] (by decide) (by decide)).1,
   (C7_missing_check_planner emptyInput [c7Fsm1] c7NoTags [] (by decide) (by decide)).2.1⟩
